import Mathlib

/-!
# PaperFlow — verification of the React→IR conversion and asset-resolution layer

A shallow embedding, in Lean 4, of the parts of the `paperflow` repository that
the specification's claims are about:

* the Tailwind utility-class parser (`packages/react/src/tailwind.ts`),
* the React→IR tree converter (`react-to-ir.ts`),
* the font loader (`packages/core/src/fonts/loader.ts`),
* the image loader (`packages/core/src/images/loader.ts`).

JavaScript data is modelled as follows: objects whose keys matter for the
claims become association lists `List (String × _)` with JS assignment
semantics (`oassign`: update in place if the key exists, else append — this is
exactly how JS object property writes and spreads behave with respect to key
order and last-write-wins), `undefined` values are modelled by absence,
numbers by the exact rational type `Q` below (the numeric literals appearing
in the sources — spacing scales, opacities, page sizes — are all exact
decimals), strings by `String`
with helper functions mirroring the JS string methods on the underlying
character lists. Network effects (`fetch`, font resolution, `atob`) are
uninterpreted parameters, so that theorems quantify over every possible
network behaviour. Nonterminating loops (the composite-unwrapping `while`
loop of the converter) are modelled with an explicit fuel parameter, `none`
meaning "still running after that many iterations".
-/

namespace Paperflow

/-! ## Exact rationals

JS numbers are IEEE doubles, but every numeric constant in the embedded
sources (spacing scales, opacities, page sizes, weights) is an exact decimal
and every operation performed on them (here: a single division and
multiplication in the fractional-width branch, and decimal-literal parsing)
is exact at the magnitudes involved, so exact rationals are a faithful model.
`Q` is a canonical-form rational (sign, coprime numerator/denominator) whose
operations are all plain structural definitions, so that concrete claims
evaluate inside the kernel (`decide`). -/

/-- Exact rational in canonical form: `neg` is `false` for zero, `den > 0`,
`gcd num den = 1` (maintained by the smart constructor `mkQ`). -/
structure Q where
  neg : Bool
  num : Nat
  den : Nat
  deriving DecidableEq, Repr

/-- Canonicalising constructor (a zero denominator — division by zero, which
the embedded code never performs on a reachable path — is collapsed to 0). -/
def mkQ (neg : Bool) (n d : Nat) : Q :=
  if n = 0 ∨ d = 0 then ⟨false, 0, 1⟩
  else
    let g := Nat.gcd n d
    ⟨neg, n / g, d / g⟩

def Q.ofNat (n : Nat) : Q := mkQ false n 1

def Q.ofInt (i : Int) : Q := mkQ (i < 0) i.natAbs 1

/-- Signed integer numerator view. -/
def Q.inum (a : Q) : Int := if a.neg then -(a.num : Int) else (a.num : Int)

def Q.add (a b : Q) : Q :=
  let n : Int := a.inum * b.den + b.inum * a.den
  mkQ (n < 0) n.natAbs (a.den * b.den)

def Q.neg' (a : Q) : Q := if a.num = 0 then a else ⟨!a.neg, a.num, a.den⟩

def Q.mul (a b : Q) : Q := mkQ (a.neg ≠ b.neg) (a.num * b.num) (a.den * b.den)

def Q.div (a b : Q) : Q := mkQ (a.neg ≠ b.neg) (a.num * b.den) (a.den * b.num)

/-- Boolean `≤` via cross multiplication. -/
def Q.ble (a b : Q) : Bool := a.inum * b.den ≤ b.inum * a.den

def qPow10 (n : Nat) : Q := mkQ false (10 ^ n) 1

instance : OfNat Q n := ⟨Q.ofNat n⟩
instance : Neg Q := ⟨Q.neg'⟩

/-- Decimal literals such as `0.05` or `595.28` (all the sources' decimal
constants), parsed exactly. -/
instance : OfScientific Q :=
  ⟨fun m b e => if b then Q.div (Q.ofNat m) (qPow10 e) else Q.mul (Q.ofNat m) (qPow10 e)⟩

/-! ## JS-flavoured string primitives (on the underlying character lists) -/

/-- JS `String.prototype.startsWith`. -/
def jsStartsWith (s pre : String) : Bool :=
  pre.data.isPrefixOf s.data

/-- Characters treated as whitespace by the JS operations used in the sources
(`trim`, `split(/\s+/)`); ASCII whitespace suffices for the inputs the
repository handles. -/
def jsIsWs (c : Char) : Bool :=
  c == ' ' || c == '\t' || c == '\n' || c == '\r' || c == '\x0c' || c == '\x0b'

/-- JS `String.prototype.trim` (drop leading and trailing whitespace). -/
def jsTrim (s : String) : String :=
  ⟨((s.data.dropWhile jsIsWs).reverse.dropWhile jsIsWs).reverse⟩

/-- Split a character list at every occurrence of the separator character,
keeping empty segments — the behaviour of JS `split(',')`. -/
def splitOnChar (sep : Char) : List Char → List (List Char)
  | [] => [[]]
  | c :: cs =>
    let rest := splitOnChar sep cs
    if c == sep then [] :: rest
    else match rest with
      | [] => [[c]]
      | r :: rs => (c :: r) :: rs

/-- JS `s.split(',')`. -/
def jsSplitComma (s : String) : List String :=
  (splitOnChar ',' s.data).map (⟨·⟩)

/-- JS `s.split(/\s+/).filter(Boolean)`: whitespace-separated tokens, empty
tokens discarded.  (`parseTailwindClasses` filters with `Boolean`, so the
empty leading segment a JS `split(/\s+/)` can produce is dropped either way.) -/
def jsTokens (s : String) : List String :=
  ((s.data.splitOnP (jsIsWs ·)).map (⟨·⟩)).filter (· ≠ "")

/-- JS `s.replace(/["']/g, '')`: delete every double or single quote. -/
def stripQuotes (s : String) : String :=
  ⟨s.data.filter (fun c => ¬ (c == '"' || c == '\''))⟩

/-- JS `s.toLowerCase()` (ASCII case mapping; the font names the repository
handles are ASCII). -/
def jsToLower (s : String) : String :=
  ⟨s.data.map Char.toLower⟩

/-- JS `s.replace(/\s+/g, '-')`: collapse every maximal whitespace run into a
single hyphen (the hyphen is emitted at the last character of each run). -/
def collapseWsToHyphen (s : String) : String :=
  ⟨go s.data⟩
where
  go : List Char → List Char
    | [] => []
    | c :: cs =>
      if jsIsWs c then
        match cs with
        | [] => ['-']
        | c' :: _ => if jsIsWs c' then go cs else '-' :: go cs
      else c :: go cs

/-- JS word character (`\w` in a regular expression): `[A-Za-z0-9_]`. -/
def isWordChar (c : Char) : Bool :=
  (('a' ≤ c && c ≤ 'z') || ('A' ≤ c && c ≤ 'Z') || ('0' ≤ c && c ≤ '9') || c == '_')

/-- Decimal digit test used when modelling `parseInt(s, 10)`. -/
def isDigitChar (c : Char) : Bool :=
  '0' ≤ c && c ≤ '9'

/-- JS `parseInt(s, 10) || 400` as used by the two weight parsers: skip
leading whitespace, read an optional sign and a maximal digit run; no digits
gives `NaN` and a parsed `0` is falsy, so both fall back to `400`. -/
def jsParseIntOr400 (s : String) : Int :=
  let cs := s.data.dropWhile jsIsWs
  let (sign, cs) : Int × List Char :=
    match cs with
    | '-' :: rest => (-1, rest)
    | '+' :: rest => (1, rest)
    | rest => (1, rest)
  let digits := cs.takeWhile isDigitChar
  if digits.isEmpty then 400
  else
    let n : Nat := digits.foldl (fun acc c => acc * 10 + (c.toNat - '0'.toNat)) 0
    if n = 0 then 400 else sign * n

/-! ## JS values and object (association-list) semantics -/

/-- The style/property values the embedded code stores: strings, (exact
decimal) numbers, booleans, `null`, `{width, height}` page-size objects and
partial margin objects.  `undefined` is modelled by absence. -/
inductive JsVal where
  | s (v : String)
  | n (v : Q)
  | b (v : Bool)
  | nul
  | size (width height : Q)
  | marginObj (top right bottom left : Option Q)
  /-- A percentage string `` `${r}%` `` built from a computed number (the
  fractional-width branch of the class parser); kept as the exact rational
  `r` rather than JS's decimal rendering of it. -/
  | pct (v : Q)
  deriving DecidableEq, Repr

/-- A JS object with the insertion-ordered keys that matter to the claims:
an association list without duplicate keys (duplicates never arise because
every write goes through `oassign`). -/
abbrev Obj := List (String × JsVal)

/-- JS property read: first (= only) binding of the key. -/
def olookup (o : Obj) (k : String) : Option JsVal :=
  match o with
  | [] => none
  | (k', v) :: rest => if k' = k then some v else olookup rest k

/-- JS property write `o[k] = v`: overwrite in place when the key exists
(keeping its position), append otherwise. -/
def oassign (o : Obj) (k : String) (v : JsVal) : Obj :=
  match o with
  | [] => [(k, v)]
  | (k', v') :: rest =>
    if k' = k then (k', v) :: rest else (k', v') :: oassign rest k v

/-- Perform a sequence of property writes in order. -/
def oassignAll (o : Obj) (ws : List (String × JsVal)) : Obj :=
  ws.foldl (fun acc kv => oassign acc kv.1 kv.2) o

/-- JS truthiness for the modelled values (`''`, `0`, `false`, `null` are
falsy). -/
def jsTruthy : Option JsVal → Bool
  | none => false
  | some (.s v) => v ≠ ""
  | some (.n v) => v ≠ 0
  | some (.b v) => v
  | some .nul => false
  | some (.size _ _) => true
  | some (.marginObj _ _ _ _) => true
  | some (.pct _) => true

/-- Left-biased choice on optional values (`Option.orElse` without the
thunk, for easier rewriting). -/
def oOr (a b : Option JsVal) : Option JsVal :=
  match a with
  | some v => some v
  | none => b

/-- The value left in place for key `k` by a sequence of property writes:
that of the *last* write to `k`, if any. -/
def lastWrite (ws : List (String × JsVal)) (k : String) : Option JsVal :=
  match ws with
  | [] => none
  | (k', v) :: rest =>
    match lastWrite rest k with
    | some v' => some v'
    | none => if k' = k then some v else none


/-! ## Numeric string parsing (JS `Number`, `parseInt`, `parseFloat`) -/

/-- Value of a hexadecimal digit, if any. -/
def hexDigitVal (c : Char) : Option Nat :=
  if '0' ≤ c ∧ c ≤ '9' then some (c.toNat - '0'.toNat)
  else if 'a' ≤ c ∧ c ≤ 'f' then some (c.toNat - 'a'.toNat + 10)
  else if 'A' ≤ c ∧ c ≤ 'F' then some (c.toNat - 'A'.toNat + 10)
  else none

/-- Digits-to-Nat accumulator. -/
def digitsToNat (ds : List Char) : Nat :=
  ds.foldl (fun acc c => acc * 10 + (c.toNat - '0'.toNat)) 0

/-- JS `Number(s)` on the string forms the repository can meet: whitespace
trimming, the empty string (`0`), hexadecimal `0x…` literals, and decimal
literals with optional sign, fraction and exponent.  `none` models `NaN`.
(Nonfinite forms such as `Infinity` are outside the model.) -/
def jsNumberOpt (s : String) : Option Q :=
  let cs := (s.data.dropWhile jsIsWs).reverse.dropWhile jsIsWs |>.reverse
  if cs.isEmpty then some 0
  else
    match cs with
    | '0' :: x :: rest =>
      if x == 'x' || x == 'X' then
        if rest ≠ [] ∧ rest.all (fun c => (hexDigitVal c).isSome) then
          some (Q.ofNat (rest.foldl (fun acc c => acc * 16 + ((hexDigitVal c).getD 0)) 0))
        else none
      else decNumber cs
    | _ => decNumber cs
where
  /-- A complete decimal literal `[±] digits [. digits] [e [±] digits]`
  (also `.digits` forms), or `none`. -/
  decNumber (cs : List Char) : Option Q :=
    let (minus, cs) : Bool × List Char :=
      match cs with
      | '-' :: rest => (true, rest)
      | '+' :: rest => (false, rest)
      | rest => (false, rest)
    let intPart := cs.takeWhile isDigitChar
    let cs₁ := cs.dropWhile isDigitChar
    let (fracPart, cs₂) : List Char × List Char :=
      match cs₁ with
      | '.' :: rest => (rest.takeWhile isDigitChar, rest.dropWhile isDigitChar)
      | rest => ([], rest)
    if intPart.isEmpty ∧ fracPart.isEmpty then none
    else
      let mantissa : Q :=
        Q.add (Q.ofNat (digitsToNat intPart))
          (Q.div (Q.ofNat (digitsToNat fracPart)) (qPow10 fracPart.length))
      let signed := if minus then mantissa.neg' else mantissa
      match cs₂ with
      | [] => some signed
      | e :: rest =>
        if e == 'e' || e == 'E' then
          let (eminus, rest) : Bool × List Char :=
            match rest with
            | '-' :: r => (true, r)
            | '+' :: r => (false, r)
            | r => (false, r)
          if rest ≠ [] ∧ rest.all isDigitChar then
            some (if eminus then signed.div (qPow10 (digitsToNat rest))
                  else signed.mul (qPow10 (digitsToNat rest)))
          else none
        else none

/-- JS `parseInt(s, 10)`: maximal signed decimal-digit prefix; `none` is
`NaN`. -/
def jsParseIntOpt (s : String) : Option Int :=
  let cs := s.data.dropWhile jsIsWs
  let (sign, cs) : Int × List Char :=
    match cs with
    | '-' :: rest => (-1, rest)
    | '+' :: rest => (1, rest)
    | rest => (1, rest)
  let digits := cs.takeWhile isDigitChar
  if digits.isEmpty then none else some (sign * digitsToNat digits)

/-- JS `parseFloat(s)`: maximal decimal-literal prefix; `none` is `NaN`.
(The exponent is included only when syntactically complete, as in JS.) -/
def jsParseFloatOpt (s : String) : Option Q :=
  let cs := s.data.dropWhile jsIsWs
  let (minus, cs) : Bool × List Char :=
    match cs with
    | '-' :: rest => (true, rest)
    | '+' :: rest => (false, rest)
    | rest => (false, rest)
  let intPart := cs.takeWhile isDigitChar
  let cs₁ := cs.dropWhile isDigitChar
  let (fracPart, cs₂) : List Char × List Char :=
    match cs₁ with
    | '.' :: rest => (rest.takeWhile isDigitChar, rest.dropWhile isDigitChar)
    | rest => ([], rest)
  if intPart.isEmpty ∧ fracPart.isEmpty then none
  else
    let mantissa : Q :=
      Q.add (Q.ofNat (digitsToNat intPart))
        (Q.div (Q.ofNat (digitsToNat fracPart)) (qPow10 fracPart.length))
    let signed := if minus then mantissa.neg' else mantissa
    let exp : Int :=
      match cs₂ with
      | e :: rest =>
        if e == 'e' || e == 'E' then
          let (esign, rest) : Int × List Char :=
            match rest with
            | '-' :: r => (-1, r)
            | '+' :: r => (1, r)
            | r => (1, r)
          let ds := rest.takeWhile isDigitChar
          if ds.isEmpty then 0 else esign * digitsToNat ds
        else 0
      | [] => 0
    some (if exp < 0 then signed.div (qPow10 exp.natAbs) else signed.mul (qPow10 exp.natAbs))
def SPACING (k : String) : Option Q :=
  match k with
  | "0" => some (0 : Q)
  | "px" => some (1 : Q)
  | "0.5" => some (2 : Q)
  | "1" => some (4 : Q)
  | "1.5" => some (6 : Q)
  | "2" => some (8 : Q)
  | "2.5" => some (10 : Q)
  | "3" => some (12 : Q)
  | "3.5" => some (14 : Q)
  | "4" => some (16 : Q)
  | "5" => some (20 : Q)
  | "6" => some (24 : Q)
  | "7" => some (28 : Q)
  | "8" => some (32 : Q)
  | "9" => some (36 : Q)
  | "10" => some (40 : Q)
  | "11" => some (44 : Q)
  | "12" => some (48 : Q)
  | "14" => some (56 : Q)
  | "16" => some (64 : Q)
  | "20" => some (80 : Q)
  | "24" => some (96 : Q)
  | "28" => some (112 : Q)
  | "32" => some (128 : Q)
  | "36" => some (144 : Q)
  | "40" => some (160 : Q)
  | "44" => some (176 : Q)
  | "48" => some (192 : Q)
  | "52" => some (208 : Q)
  | "56" => some (224 : Q)
  | "60" => some (240 : Q)
  | "64" => some (256 : Q)
  | "72" => some (288 : Q)
  | "80" => some (320 : Q)
  | "96" => some (384 : Q)
  | _ => none

def FONT_SIZES (k : String) : Option (Q × Q) :=
  match k with
  | "xs" => some ((12 : Q), (16 : Q))
  | "sm" => some ((14 : Q), (20 : Q))
  | "base" => some ((16 : Q), (24 : Q))
  | "lg" => some ((18 : Q), (28 : Q))
  | "xl" => some ((20 : Q), (28 : Q))
  | "2xl" => some ((24 : Q), (32 : Q))
  | "3xl" => some ((30 : Q), (36 : Q))
  | "4xl" => some ((36 : Q), (40 : Q))
  | "5xl" => some ((48 : Q), (48 : Q))
  | "6xl" => some ((60 : Q), (60 : Q))
  | "7xl" => some ((72 : Q), (72 : Q))
  | "8xl" => some ((96 : Q), (96 : Q))
  | "9xl" => some ((128 : Q), (128 : Q))
  | _ => none

def FONT_WEIGHTS (k : String) : Option Q :=
  match k with
  | "thin" => some (100 : Q)
  | "extralight" => some (200 : Q)
  | "light" => some (300 : Q)
  | "normal" => some (400 : Q)
  | "medium" => some (500 : Q)
  | "semibold" => some (600 : Q)
  | "bold" => some (700 : Q)
  | "extrabold" => some (800 : Q)
  | "black" => some (900 : Q)
  | _ => none

def COLORS (k : String) : Option String :=
  match k with
  | "transparent" => some "transparent"
  | "current" => some "currentColor"
  | "black" => some "#000000"
  | "white" => some "#ffffff"
  | "gray-50" => some "#f9fafb"
  | "gray-100" => some "#f3f4f6"
  | "gray-200" => some "#e5e7eb"
  | "gray-300" => some "#d1d5db"
  | "gray-400" => some "#9ca3af"
  | "gray-500" => some "#6b7280"
  | "gray-600" => some "#4b5563"
  | "gray-700" => some "#374151"
  | "gray-800" => some "#1f2937"
  | "gray-900" => some "#111827"
  | "gray-950" => some "#030712"
  | "slate-50" => some "#f8fafc"
  | "slate-100" => some "#f1f5f9"
  | "slate-200" => some "#e2e8f0"
  | "slate-300" => some "#cbd5e1"
  | "slate-400" => some "#94a3b8"
  | "slate-500" => some "#64748b"
  | "slate-600" => some "#475569"
  | "slate-700" => some "#334155"
  | "slate-800" => some "#1e293b"
  | "slate-900" => some "#0f172a"
  | "slate-950" => some "#020617"
  | "red-50" => some "#fef2f2"
  | "red-100" => some "#fee2e2"
  | "red-200" => some "#fecaca"
  | "red-300" => some "#fca5a5"
  | "red-400" => some "#f87171"
  | "red-500" => some "#ef4444"
  | "red-600" => some "#dc2626"
  | "red-700" => some "#b91c1c"
  | "red-800" => some "#991b1b"
  | "red-900" => some "#7f1d1d"
  | "red-950" => some "#450a0a"
  | "orange-50" => some "#fff7ed"
  | "orange-100" => some "#ffedd5"
  | "orange-200" => some "#fed7aa"
  | "orange-300" => some "#fdba74"
  | "orange-400" => some "#fb923c"
  | "orange-500" => some "#f97316"
  | "orange-600" => some "#ea580c"
  | "orange-700" => some "#c2410c"
  | "orange-800" => some "#9a3412"
  | "orange-900" => some "#7c2d12"
  | "orange-950" => some "#431407"
  | "yellow-50" => some "#fefce8"
  | "yellow-100" => some "#fef9c3"
  | "yellow-200" => some "#fef08a"
  | "yellow-300" => some "#fde047"
  | "yellow-400" => some "#facc15"
  | "yellow-500" => some "#eab308"
  | "yellow-600" => some "#ca8a04"
  | "yellow-700" => some "#a16207"
  | "yellow-800" => some "#854d0e"
  | "yellow-900" => some "#713f12"
  | "yellow-950" => some "#422006"
  | "green-50" => some "#f0fdf4"
  | "green-100" => some "#dcfce7"
  | "green-200" => some "#bbf7d0"
  | "green-300" => some "#86efac"
  | "green-400" => some "#4ade80"
  | "green-500" => some "#22c55e"
  | "green-600" => some "#16a34a"
  | "green-700" => some "#15803d"
  | "green-800" => some "#166534"
  | "green-900" => some "#14532d"
  | "green-950" => some "#052e16"
  | "blue-50" => some "#eff6ff"
  | "blue-100" => some "#dbeafe"
  | "blue-200" => some "#bfdbfe"
  | "blue-300" => some "#93c5fd"
  | "blue-400" => some "#60a5fa"
  | "blue-500" => some "#3b82f6"
  | "blue-600" => some "#2563eb"
  | "blue-700" => some "#1d4ed8"
  | "blue-800" => some "#1e40af"
  | "blue-900" => some "#1e3a8a"
  | "blue-950" => some "#172554"
  | "indigo-50" => some "#eef2ff"
  | "indigo-100" => some "#e0e7ff"
  | "indigo-200" => some "#c7d2fe"
  | "indigo-300" => some "#a5b4fc"
  | "indigo-400" => some "#818cf8"
  | "indigo-500" => some "#6366f1"
  | "indigo-600" => some "#4f46e5"
  | "indigo-700" => some "#4338ca"
  | "indigo-800" => some "#3730a3"
  | "indigo-900" => some "#312e81"
  | "indigo-950" => some "#1e1b4b"
  | "purple-50" => some "#faf5ff"
  | "purple-100" => some "#f3e8ff"
  | "purple-200" => some "#e9d5ff"
  | "purple-300" => some "#d8b4fe"
  | "purple-400" => some "#c084fc"
  | "purple-500" => some "#a855f7"
  | "purple-600" => some "#9333ea"
  | "purple-700" => some "#7e22ce"
  | "purple-800" => some "#6b21a8"
  | "purple-900" => some "#581c87"
  | "purple-950" => some "#3b0764"
  | "pink-50" => some "#fdf2f8"
  | "pink-100" => some "#fce7f3"
  | "pink-200" => some "#fbcfe8"
  | "pink-300" => some "#f9a8d4"
  | "pink-400" => some "#f472b6"
  | "pink-500" => some "#ec4899"
  | "pink-600" => some "#db2777"
  | "pink-700" => some "#be185d"
  | "pink-800" => some "#9d174d"
  | "pink-900" => some "#831843"
  | "pink-950" => some "#500724"
  | _ => none

def BORDER_RADIUS (k : String) : Option Q :=
  match k with
  | "none" => some (0 : Q)
  | "sm" => some (2 : Q)
  | "" => some (4 : Q)
  | "md" => some (6 : Q)
  | "lg" => some (8 : Q)
  | "xl" => some (12 : Q)
  | "2xl" => some (16 : Q)
  | "3xl" => some (24 : Q)
  | "full" => some (9999 : Q)
  | _ => none

def BORDER_WIDTH (k : String) : Option Q :=
  match k with
  | "" => some (1 : Q)
  | "0" => some (0 : Q)
  | "2" => some (2 : Q)
  | "4" => some (4 : Q)
  | "8" => some (8 : Q)
  | _ => none

def OPACITY (k : String) : Option Q :=
  match k with
  | "0" => some (0 : Q)
  | "5" => some (0.05 : Q)
  | "10" => some (0.1 : Q)
  | "20" => some (0.2 : Q)
  | "25" => some (0.25 : Q)
  | "30" => some (0.3 : Q)
  | "40" => some (0.4 : Q)
  | "50" => some (0.5 : Q)
  | "60" => some (0.6 : Q)
  | "70" => some (0.7 : Q)
  | "75" => some (0.75 : Q)
  | "80" => some (0.8 : Q)
  | "90" => some (0.9 : Q)
  | "95" => some (0.95 : Q)
  | "100" => some (1 : Q)
  | _ => none
/-! ## The Tailwind class parser (`tailwind.ts`, `parseClass` /
`parseTailwindClasses`)

`parseClass(cls, style)` in the source is a long chain of early-returning
branches, each performing only property *writes* whose keys and values depend
on `cls` alone.  It is embedded as `tokenWrites : String → List (String ×
JsVal)` — the ordered list of writes the matched branch performs (empty when
the branch matches but its table lookup fails, or when no branch matches) —
applied with JS assignment semantics by `parseClass`. -/

/-- JS `s.slice(n)`. -/
def jsSlice (s : String) (n : Nat) : String :=
  ⟨s.data.drop n⟩

/-- Truthiness of an optional string (for `COLORS[x]`-style conditions). -/
def strTruthy : Option String → Bool
  | none => false
  | some v => v ≠ ""

/-- Truthiness of an optional number (for `Number(x)`-style conditions,
where `NaN` and `0` are falsy). -/
def ratTruthy : Option Q → Bool
  | none => false
  | some r => r ≠ 0

/-- Source `fontName.split('-').map(w => w.charAt(0).toUpperCase() +
w.slice(1)).join(' ')` — kebab-case to Title Case (rest of each word kept
verbatim, as in the source). -/
def titleCaseKebab (s : String) : String :=
  String.intercalate " " ((splitOnChar '-' s.data).map fun w =>
    match w with
    | [] => ""
    | c :: rest => ⟨c.toUpper :: rest⟩)

/-- The property writes `parseClass` performs for one class token, in source
branch order. -/
def tokenWrites (cls : String) : List (String × JsVal) :=
  -- Display
  if cls = "flex" then [("display", .s "flex")]
  else if cls = "hidden" then [("display", .s "none")]
  -- Flex Direction
  else if cls = "flex-row" then [("flexDirection", .s "row")]
  else if cls = "flex-row-reverse" then [("flexDirection", .s "row-reverse")]
  else if cls = "flex-col" then [("flexDirection", .s "column")]
  else if cls = "flex-col-reverse" then [("flexDirection", .s "column-reverse")]
  -- Flex Wrap
  else if cls = "flex-wrap" then [("flexWrap", .s "wrap")]
  else if cls = "flex-wrap-reverse" then [("flexWrap", .s "wrap-reverse")]
  else if cls = "flex-nowrap" then [("flexWrap", .s "nowrap")]
  -- Flex Grow/Shrink
  else if cls = "flex-1" then [("flex", .s "1 1 0%")]
  else if cls = "flex-auto" then [("flex", .s "1 1 auto")]
  else if cls = "flex-initial" then [("flex", .s "0 1 auto")]
  else if cls = "flex-none" then [("flex", .s "none")]
  else if cls = "grow" then [("flexGrow", .n 1)]
  else if cls = "grow-0" then [("flexGrow", .n 0)]
  else if cls = "shrink" then [("flexShrink", .n 1)]
  else if cls = "shrink-0" then [("flexShrink", .n 0)]
  -- Justify Content
  else if cls = "justify-start" then [("justifyContent", .s "flex-start")]
  else if cls = "justify-end" then [("justifyContent", .s "flex-end")]
  else if cls = "justify-center" then [("justifyContent", .s "center")]
  else if cls = "justify-between" then [("justifyContent", .s "space-between")]
  else if cls = "justify-around" then [("justifyContent", .s "space-around")]
  else if cls = "justify-evenly" then [("justifyContent", .s "space-evenly")]
  -- Align Items
  else if cls = "items-start" then [("alignItems", .s "flex-start")]
  else if cls = "items-end" then [("alignItems", .s "flex-end")]
  else if cls = "items-center" then [("alignItems", .s "center")]
  else if cls = "items-baseline" then [("alignItems", .s "baseline")]
  else if cls = "items-stretch" then [("alignItems", .s "stretch")]
  -- Align Self
  else if cls = "self-auto" then [("alignSelf", .s "auto")]
  else if cls = "self-start" then [("alignSelf", .s "flex-start")]
  else if cls = "self-end" then [("alignSelf", .s "flex-end")]
  else if cls = "self-center" then [("alignSelf", .s "center")]
  else if cls = "self-stretch" then [("alignSelf", .s "stretch")]
  -- Gap (note: the `gap-x-` / `gap-y-` branches below are unreachable in the
  -- source, because `gap-x-…` and `gap-y-…` already match `gap-`)
  else if jsStartsWith cls "gap-" then
    match SPACING (jsSlice cls 4) with
    | some v => [("gap", .n v)]
    | none => []
  else if jsStartsWith cls "gap-x-" then
    match SPACING (jsSlice cls 6) with
    | some v => [("columnGap", .n v)]
    | none => []
  else if jsStartsWith cls "gap-y-" then
    match SPACING (jsSlice cls 6) with
    | some v => [("rowGap", .n v)]
    | none => []
  -- Padding
  else if jsStartsWith cls "p-" then
    match SPACING (jsSlice cls 2) with
    | some v => [("padding", .n v)]
    | none => []
  else if jsStartsWith cls "px-" then
    match SPACING (jsSlice cls 3) with
    | some v => [("paddingLeft", .n v), ("paddingRight", .n v)]
    | none => []
  else if jsStartsWith cls "py-" then
    match SPACING (jsSlice cls 3) with
    | some v => [("paddingTop", .n v), ("paddingBottom", .n v)]
    | none => []
  else if jsStartsWith cls "pt-" then
    match SPACING (jsSlice cls 3) with
    | some v => [("paddingTop", .n v)]
    | none => []
  else if jsStartsWith cls "pr-" then
    match SPACING (jsSlice cls 3) with
    | some v => [("paddingRight", .n v)]
    | none => []
  else if jsStartsWith cls "pb-" then
    match SPACING (jsSlice cls 3) with
    | some v => [("paddingBottom", .n v)]
    | none => []
  else if jsStartsWith cls "pl-" then
    match SPACING (jsSlice cls 3) with
    | some v => [("paddingLeft", .n v)]
    | none => []
  -- Margin
  else if jsStartsWith cls "m-" then
    if jsSlice cls 2 = "auto" then [("margin", .s "auto")]
    else match SPACING (jsSlice cls 2) with
    | some v => [("margin", .n v)]
    | none => []
  else if jsStartsWith cls "mx-" then
    if jsSlice cls 3 = "auto" then [("marginLeft", .s "auto"), ("marginRight", .s "auto")]
    else match SPACING (jsSlice cls 3) with
    | some v => [("marginLeft", .n v), ("marginRight", .n v)]
    | none => []
  else if jsStartsWith cls "my-" then
    if jsSlice cls 3 = "auto" then [("marginTop", .s "auto"), ("marginBottom", .s "auto")]
    else match SPACING (jsSlice cls 3) with
    | some v => [("marginTop", .n v), ("marginBottom", .n v)]
    | none => []
  else if jsStartsWith cls "mt-" then
    if jsSlice cls 3 = "auto" then [("marginTop", .s "auto")]
    else match SPACING (jsSlice cls 3) with
    | some v => [("marginTop", .n v)]
    | none => []
  else if jsStartsWith cls "mr-" then
    if jsSlice cls 3 = "auto" then [("marginRight", .s "auto")]
    else match SPACING (jsSlice cls 3) with
    | some v => [("marginRight", .n v)]
    | none => []
  else if jsStartsWith cls "mb-" then
    if jsSlice cls 3 = "auto" then [("marginBottom", .s "auto")]
    else match SPACING (jsSlice cls 3) with
    | some v => [("marginBottom", .n v)]
    | none => []
  else if jsStartsWith cls "ml-" then
    if jsSlice cls 3 = "auto" then [("marginLeft", .s "auto")]
    else match SPACING (jsSlice cls 3) with
    | some v => [("marginLeft", .n v)]
    | none => []
  -- Width
  else if jsStartsWith cls "w-" then
    let value := jsSlice cls 2
    if value = "full" then [("width", .s "100%")]
    else if value = "screen" then [("width", .s "100vw")]
    else if value = "auto" then [("width", .s "auto")]
    else if value.data.contains '/' then
      match (splitOnChar '/' value.data).map (fun l => jsNumberOpt ⟨l⟩) with
      | num :: den :: _ =>
        if ratTruthy num ∧ ratTruthy den then
          [("width", .pct (((num.getD 0).div (den.getD 0)).mul 100))]
        else []
      | _ => []
    else match SPACING value with
    | some v => [("width", .n v)]
    | none => []
  -- Min/Max Width
  else if jsStartsWith cls "min-w-" then
    let value := jsSlice cls 6
    if value = "full" then [("minWidth", .s "100%")]
    else match SPACING value with
    | some v => [("minWidth", .n v)]
    | none => []
  else if jsStartsWith cls "max-w-" then
    let value := jsSlice cls 6
    if value = "full" then [("maxWidth", .s "100%")]
    else if value = "none" then [("maxWidth", .s "none")]
    else match SPACING value with
    | some v => [("maxWidth", .n v)]
    | none => []
  -- Height
  else if jsStartsWith cls "h-" then
    let value := jsSlice cls 2
    if value = "full" then [("height", .s "100%")]
    else if value = "screen" then [("height", .s "100vh")]
    else if value = "auto" then [("height", .s "auto")]
    else match SPACING value with
    | some v => [("height", .n v)]
    | none => []
  -- Font Size
  else if jsStartsWith cls "text-" ∧ (FONT_SIZES (jsSlice cls 5)).isSome then
    match FONT_SIZES (jsSlice cls 5) with
    | some (fs, lh) => [("fontSize", .n fs), ("lineHeight", .n lh)]
    | none => []
  -- Font Weight
  else if jsStartsWith cls "font-" ∧ (FONT_WEIGHTS (jsSlice cls 5)).isSome then
    match FONT_WEIGHTS (jsSlice cls 5) with
    | some w => [("fontWeight", .n w)]
    | none => []
  -- Font Style
  else if cls = "italic" then [("fontStyle", .s "italic")]
  else if cls = "not-italic" then [("fontStyle", .s "normal")]
  -- Font Family
  else if cls = "font-sans" then [("fontFamily", .s "Inter, system-ui, sans-serif")]
  else if cls = "font-serif" then [("fontFamily", .s "Georgia, serif")]
  else if cls = "font-mono" then [("fontFamily", .s "JetBrains Mono, monospace")]
  -- Custom font families like `font-inter` (`!FONT_WEIGHTS[…]`: the table
  -- holds no zero weights, so falsy = absent)
  else if jsStartsWith cls "font-" ∧ ¬ ratTruthy (FONT_WEIGHTS (jsSlice cls 5)) then
    let fontName := jsSlice cls 5
    if fontName ≠ "sans" ∧ fontName ≠ "serif" ∧ fontName ≠ "mono" then
      [("fontFamily", .s (titleCaseKebab fontName))]
    else []
  -- Text Color
  else if jsStartsWith cls "text-" ∧ strTruthy (COLORS (jsSlice cls 5)) then
    match COLORS (jsSlice cls 5) with
    | some c => [("color", .s c)]
    | none => []
  -- Text Alignment
  else if cls = "text-left" then [("textAlign", .s "left")]
  else if cls = "text-center" then [("textAlign", .s "center")]
  else if cls = "text-right" then [("textAlign", .s "right")]
  else if cls = "text-justify" then [("textAlign", .s "justify")]
  -- Text Decoration
  else if cls = "underline" then [("textDecoration", .s "underline")]
  else if cls = "line-through" then [("textDecoration", .s "line-through")]
  else if cls = "no-underline" then [("textDecoration", .s "none")]
  -- Text Transform
  else if cls = "uppercase" then [("textTransform", .s "uppercase")]
  else if cls = "lowercase" then [("textTransform", .s "lowercase")]
  else if cls = "capitalize" then [("textTransform", .s "capitalize")]
  else if cls = "normal-case" then [("textTransform", .s "none")]
  -- Letter Spacing
  else if cls = "tracking-tighter" then [("letterSpacing", .n (-0.8))]
  else if cls = "tracking-tight" then [("letterSpacing", .n (-0.4))]
  else if cls = "tracking-normal" then [("letterSpacing", .n 0)]
  else if cls = "tracking-wide" then [("letterSpacing", .n 0.4)]
  else if cls = "tracking-wider" then [("letterSpacing", .n 0.8)]
  else if cls = "tracking-widest" then [("letterSpacing", .n 1.6)]
  -- Line Height
  else if cls = "leading-none" then [("lineHeight", .n 1)]
  else if cls = "leading-tight" then [("lineHeight", .n 1.25)]
  else if cls = "leading-snug" then [("lineHeight", .n 1.375)]
  else if cls = "leading-normal" then [("lineHeight", .n 1.5)]
  else if cls = "leading-relaxed" then [("lineHeight", .n 1.625)]
  else if cls = "leading-loose" then [("lineHeight", .n 2)]
  -- Background Color
  else if jsStartsWith cls "bg-" ∧ strTruthy (COLORS (jsSlice cls 3)) then
    match COLORS (jsSlice cls 3) with
    | some c => [("backgroundColor", .s c)]
    | none => []
  -- Border Radius
  else if cls = "rounded" then
    match BORDER_RADIUS "" with
    | some r => [("borderRadius", .n r)]
    | none => []
  else if jsStartsWith cls "rounded-" then
    match BORDER_RADIUS (jsSlice cls 8) with
    | some r => [("borderRadius", .n r)]
    | none => []
  -- Border Width
  else if cls = "border" then
    [("borderWidth", .n 1), ("borderStyle", .s "solid"),
     ("borderColor", .s ((COLORS "gray-200").getD ""))]
  else if jsStartsWith cls "border-" ∧ (BORDER_WIDTH (jsSlice cls 7)).isSome then
    match BORDER_WIDTH (jsSlice cls 7) with
    | some w => [("borderWidth", .n w), ("borderStyle", .s "solid")]
    | none => []
  else if cls = "border-t" then [("borderTopWidth", .n 1), ("borderStyle", .s "solid")]
  else if cls = "border-r" then [("borderRightWidth", .n 1), ("borderStyle", .s "solid")]
  else if cls = "border-b" then [("borderBottomWidth", .n 1), ("borderStyle", .s "solid")]
  else if cls = "border-l" then [("borderLeftWidth", .n 1), ("borderStyle", .s "solid")]
  -- Border Color
  else if jsStartsWith cls "border-" ∧ strTruthy (COLORS (jsSlice cls 7)) then
    match COLORS (jsSlice cls 7) with
    | some c => [("borderColor", .s c)]
    | none => []
  -- Border Style
  else if cls = "border-solid" then [("borderStyle", .s "solid")]
  else if cls = "border-dashed" then [("borderStyle", .s "dashed")]
  else if cls = "border-dotted" then [("borderStyle", .s "dotted")]
  else if cls = "border-none" then [("borderStyle", .s "none")]
  -- Opacity
  else if jsStartsWith cls "opacity-" then
    match OPACITY (jsSlice cls 8) with
    | some v => [("opacity", .n v)]
    | none => []
  -- Overflow
  else if cls = "overflow-hidden" then [("overflow", .s "hidden")]
  else if cls = "overflow-visible" then [("overflow", .s "visible")]
  -- Position
  else if cls = "relative" then [("position", .s "relative")]
  else if cls = "absolute" then [("position", .s "absolute")]
  -- Position Values
  else if jsStartsWith cls "top-" then
    match SPACING (jsSlice cls 4) with
    | some v => [("top", .n v)]
    | none => []
  else if jsStartsWith cls "right-" then
    match SPACING (jsSlice cls 6) with
    | some v => [("right", .n v)]
    | none => []
  else if jsStartsWith cls "bottom-" then
    match SPACING (jsSlice cls 7) with
    | some v => [("bottom", .n v)]
    | none => []
  else if jsStartsWith cls "left-" then
    match SPACING (jsSlice cls 5) with
    | some v => [("left", .n v)]
    | none => []
  -- Z-Index
  else if jsStartsWith cls "z-" then
    match jsParseIntOpt (jsSlice cls 2) with
    | some v => [("zIndex", .n (Q.ofInt v))]
    | none => []
  -- Object Fit
  else if cls = "object-contain" then [("objectFit", .s "contain")]
  else if cls = "object-cover" then [("objectFit", .s "cover")]
  else if cls = "object-fill" then [("objectFit", .s "fill")]
  else if cls = "object-none" then [("objectFit", .s "none")]
  else []

/-- Source `parseClass(cls, style)`: apply the branch's property writes to the
(mutable, in the source) style object. -/
def parseClass (cls : String) (style : Obj) : Obj :=
  oassignAll style (tokenWrites cls)

/-- Source `parseTailwindClasses(className)`. -/
def parseTailwindClasses (className : String) : Obj :=
  if className = "" then []   -- `if (!className) return {}`
  else (jsTokens className).foldl (fun style cls => parseClass cls style) []

/-- Source `tw(className)`, an alias. -/
def tw (className : String) : Obj :=
  parseTailwindClasses className

/-! ## Core IR types (`packages/core/src/ir/types.ts`) -/

inductive IRNodeType where
  | document | page | view | text | image | link
  deriving DecidableEq, Repr

/-- Source `IRNode`: type tag, props bag, flattened style map, ordered children.
(No derived `DecidableEq`: claims about concrete nodes project named fields
instead of comparing whole trees.) -/
inductive IRNode where
  | mk (type : IRNodeType) (props : Obj) (style : Obj) (children : List IRNode)

def IRNode.type : IRNode → IRNodeType
  | .mk t _ _ _ => t

def IRNode.props : IRNode → Obj
  | .mk _ p _ _ => p

def IRNode.style : IRNode → Obj
  | .mk _ _ st _ => st

def IRNode.children : IRNode → List IRNode
  | .mk _ _ _ cs => cs

structure PageSize where
  width : Q
  height : Q
  deriving DecidableEq, Repr

structure Margin where
  top : Q
  right : Q
  bottom : Q
  left : Q
  deriving DecidableEq, Repr

structure IRPage where
  size : PageSize
  margin : Margin
  children : List IRNode

structure IRFontUsage where
  family : String
  weights : List Q
  styles : List String
  deriving DecidableEq, Repr

/-- Source `originalSrc` is the raw source prop value (the converter only ever sees
string sources in this model; deferred-function sources reach it through the
`async-` branch, represented by a non-string value). -/
structure IRImageUsage where
  id : String
  src : String
  originalSrc : JsVal
  deriving DecidableEq, Repr

/-- Document metadata; `creationDate` (a wall-clock timestamp) is outside the
model. -/
structure IRDocumentMetadata where
  title : Option String
  author : Option String
  subject : Option String
  creator : Option String
  deriving DecidableEq, Repr

structure IRDocument where
  version : Nat
  pages : List IRPage
  fonts : List IRFontUsage
  images : List IRImageUsage
  metadata : Option IRDocumentMetadata

/-- Source `PageSizes` (points). -/
def PageSizes (name : String) : Option PageSize :=
  match name with
  | "A4" => some ⟨595.28, 841.89⟩
  | "A3" => some ⟨841.89, 1190.55⟩
  | "A5" => some ⟨419.53, 595.28⟩
  | "Letter" => some ⟨612, 792⟩
  | "Legal" => some ⟨612, 1008⟩
  | "Tabloid" => some ⟨792, 1224⟩
  | _ => none

/-- Split a character list on maximal whitespace runs, keeping boundary empty
segments — the behaviour of JS `split(/\s+/)`. -/
def splitWsRuns : List Char → List (List Char)
  | [] => [[]]
  | c :: cs =>
    let rest := splitWsRuns cs
    if jsIsWs c then
      match cs with
      | c' :: _ => if jsIsWs c' then rest else [] :: rest
      | [] => [] :: rest
    else
      match rest with
      | [] => [[c]]
      | r :: rs => (c :: r) :: rs

/-- JS `s.split(/\s+/)`. -/
def jsSplitWs (s : String) : List String :=
  (splitWsRuns s.data).map (⟨·⟩)

/-- Source `normalizeMargin(margin)`.  A `NaN` margin component (a non-numeric part
in a margin string — never produced by the repository's own components) is
outside the model and collapsed to `0`. -/
def normalizeMargin (margin : Option JsVal) : Margin :=
  match margin with
  | none => ⟨0, 0, 0, 0⟩
  | some (.n m) => ⟨m, m, m, m⟩
  | some (.s str) =>
    let parts := (jsSplitWs str).map jsParseFloatOpt
    if parts.length = 1 then
      let val := (parts.headD none).getD 0
      ⟨val, val, val, val⟩
    else if parts.length = 2 then
      let vertical := (parts.getD 0 none).getD 0
      let horizontal := (parts.getD 1 none).getD 0
      ⟨vertical, horizontal, vertical, horizontal⟩
    else if parts.length = 4 then
      ⟨(parts.getD 0 none).getD 0, (parts.getD 1 none).getD 0,
       (parts.getD 2 none).getD 0, (parts.getD 3 none).getD 0⟩
    else
      -- falls through to the partial-object branch, where `.top` etc. of a
      -- string are all `undefined`
      ⟨0, 0, 0, 0⟩
  | some (.marginObj t r b l) => ⟨t.getD 0, r.getD 0, b.getD 0, l.getD 0⟩
  -- partial-object branch on any other value: every field read is undefined
  | some _ => ⟨0, 0, 0, 0⟩

/-- Source `resolvePageSize(size)`.  (A non-string, non-object size value is passed
through unchanged by the source — a type-confused case no caller produces;
outside the model it resolves to A4.) -/
def resolvePageSize (size : Option JsVal) : PageSize :=
  match size with
  | none => ⟨595.28, 841.89⟩
  | some (.s name) => (PageSizes name).getD ⟨595.28, 841.89⟩
  | some (.size w h) => ⟨w, h⟩
  | some _ => ⟨595.28, 841.89⟩

/-! ## React elements (`components.tsx`) and the converter (`react-to-ir.ts`)

A React element is a type tag plus props.  The type is either a host tag
string or a *function component*; to keep the embedding first-order (and to
be able to build self-referential composites), function components are
represented by an index into an environment `Env : Nat → Props → Option
Elem` giving each component's body — `none` models a function returning a
non-element value (`isReactElement` fails on the result).  Props are the
slots the converter reads (`className`, `style`, `children`) plus the
remaining fields in insertion order (`undefined`-valued props are absent, as
everywhere in the model). -/

inductive ETy where
  | host (tag : String)
  | comp (idx : Nat)
  deriving DecidableEq, Repr

mutual
inductive Elem where
  | mk (ty : ETy) (props : Props)

inductive Props where
  | mk (className : Option String) (style : Option Obj) (children : Child)
       (fields : List (String × JsVal))

inductive Child where
  | null
  | bool (b : Bool)
  | str (s : String)
  | num (v : Q)
  | elem (e : Elem)
  | arr (cs : List Child)
end

def Elem.ty : Elem → ETy
  | .mk t _ => t

def Elem.props : Elem → Props
  | .mk _ p => p

def Props.className : Props → Option String
  | .mk c _ _ _ => c

def Props.style : Props → Option Obj
  | .mk _ st _ _ => st

def Props.children : Props → Child
  | .mk _ _ ch _ => ch

def Props.fields : Props → List (String × JsVal)
  | .mk _ _ _ fs => fs

def Props.empty : Props := .mk none none .null []

/-- Environment giving every function component's body. -/
abbrev Env := Nat → Props → Option Elem

/-- Source `unwrapElement`: the `while (typeof current.type === 'function')` loop,
with fuel — `none` means the loop is still running after `fuel` iterations
(the source has no iteration bound).  A function returning a non-element
breaks the loop, leaving `current` as it was. -/
def unwrapF (env : Env) : Nat → Elem → Option Elem
  | 0, _ => none
  | _ + 1, .mk (.host t) p => some (.mk (.host t) p)
  | n + 1, .mk (.comp i) p =>
    match env i p with
    | none => some (.mk (.comp i) p)
    | some e' => unwrapF env n e'

/-- Source `getElementType`. -/
def getElementType : ETy → IRNodeType
  | .host "paperflow-document" => .document
  | .host "paperflow-page" => .page
  | .host "paperflow-view" => .view
  | .host "paperflow-text" => .text
  | .host "paperflow-image" => .image
  | .host "paperflow-link" => .link
  | .host _ => .view
  | .comp _ => .view

/-- Source `mergeStyles`: `{ ...tailwindStyle, ...inlineStyle }`. -/
def mergeStyles (tailwindStyle inlineStyle : Obj) : Obj :=
  oassignAll (oassignAll [] tailwindStyle) inlineStyle

/-- Source `convertStyle`: copy entries whose value is defined and non-`null`
(undefined values are already absent in the model). -/
def convertStyle (style : Obj) : Obj :=
  style.foldl (fun ir kv => if kv.2 = .nul then ir else oassign ir kv.1 kv.2) []

/-- Source `extractProps`: all props except `style`, `className` and `children`
(which live in dedicated slots here) with `undefined` values dropped (absent
in the model). -/
def extractProps (props : Props) : Obj :=
  props.fields

/-- The `weights` table of `parseWeight` in `react-to-ir.ts`. -/
def irWeightTable (w : String) : Option Q :=
  match w with
  | "thin" => some 100
  | "extralight" => some 200
  | "light" => some 300
  | "normal" => some 400
  | "medium" => some 500
  | "semibold" => some 600
  | "bold" => some 700
  | "extrabold" => some 800
  | "black" => some 900
  | _ => none

/-- Source `parseWeight` (`react-to-ir.ts`): table lookup on the lowercased name,
else `parseInt(weight, 10) || 400`. -/
def parseWeight (weight : String) : Q :=
  match irWeightTable (jsToLower weight) with
  | some w => w
  | none => Q.ofInt (jsParseIntOr400 weight)

/-- Conversion context: the running font map (`Map<string, Set<number>>`,
insertion-ordered) and image map (`Map<string, IRImageUsage>` keyed by the
source string). -/
structure ConvCtx where
  fonts : List (String × List Q)
  images : List (String × IRImageUsage)
  deriving DecidableEq, Repr

/-- Add a weight to a family's `Set` (insertion-ordered, duplicates
ignored), creating the entry if needed — the body of `trackFonts`'s map
manipulation. -/
def addFontWeight (fonts : List (String × List Q)) (fam : String) (w : Q) :
    List (String × List Q) :=
  match fonts with
  | [] => [(fam, [w])]
  | (f, ws) :: rest =>
    if f = fam then (f, if ws.any (· = w) then ws else ws ++ [w]) :: rest
    else (f, ws) :: addFontWeight rest fam w

/-- The font-family key `trackFonts` uses for a declared `fontFamily` string:
first comma-separated segment, trimmed, with quotes removed. -/
def trackFontKey (fontFamily : String) : String :=
  (((jsSplitComma fontFamily).map (fun f => stripQuotes (jsTrim f))).headD "")

/-- Source `trackFonts(style, context)`.  (A non-string `fontFamily` or a
non-string, non-number `fontWeight` would throw in the source; such values
never arise and are outside the model.) -/
def trackFonts (style : Obj) (ctx : ConvCtx) : ConvCtx :=
  match olookup style "fontFamily" with
  | some (.s f) =>
    if f ≠ "" then          -- `if (fontFamily)`
      let primaryFamily := trackFontKey f
      if primaryFamily ≠ "" then    -- `if (primaryFamily)`
        let weight : Q :=
          match olookup style "fontWeight" with   -- `?? 400` (also on null)
          | some (.n w) => w
          | some (.s w) => parseWeight w
          | _ => 400
        { ctx with fonts := addFontWeight ctx.fonts primaryFamily weight }
      else ctx
    else ctx
  | _ => ctx

/-- Source `trackImage(src, context)`. -/
def trackImage (src : JsVal) (ctx : ConvCtx) : ConvCtx :=
  let srcString :=
    match src with
    | .s s => s
    | _ => "async-" ++ toString ctx.images.length
  if (ctx.images.any (·.1 = srcString)) then ctx
  else { ctx with
          images := ctx.images ++
            [(srcString, ⟨"img-" ++ toString ctx.images.length, srcString, src⟩)] }

/-- Truthiness of an optional string prop (`props.className ? … : …`). -/
def optStrTruthy : Option String → Bool
  | none => false
  | some c => c ≠ ""

/-- JS number-to-string for text children (`String(children)`); exact for
the integers that occur, non-integers rendered as `num/den` (JS would print
a decimal — no claim touches non-integer numeric children). -/
def jsNumToString (q : Q) : String :=
  let mag := if q.den = 1 then toString q.num else toString q.num ++ "/" ++ toString q.den
  if q.neg then "-" ++ mag else "-".drop 1 ++ mag

/-! Source `convertElement` / `convertChildren` (`react-to-ir.ts`),
fuel-indexed: every recursive call costs one unit, `none` meaning the
conversion has not finished within the given fuel (the source recursion is
unbounded — a composite expanding to ever-deeper trees never returns).
`convertChildrenF` returns the flat node list together with the updated
context. -/
mutual

def convertElemF (env : Env) : Nat → Elem → ConvCtx → Option (IRNode × ConvCtx)
  | 0, _, _ => none
  | n + 1, e, ctx =>
    match unwrapF env (n + 1) e with
    | none => none
    | some u =>
      let props := u.props
      let elementType := getElementType u.ty
      let tailwindStyle : Obj :=
        if optStrTruthy props.className then parseTailwindClasses (props.className.getD "")
        else []
      let inlineStyle : Obj := props.style.getD []      -- `props.style ?? {}`
      let mergedStyle := mergeStyles tailwindStyle inlineStyle
      let ctx := trackFonts mergedStyle ctx
      let ctx :=
        if elementType = .image ∧ jsTruthy (olookup props.fields "src") then
          trackImage ((olookup props.fields "src").getD .nul) ctx
        else ctx
      match convertChildrenF env n props.children ctx with
      | none => none
      | some (children, ctx) =>
        some (.mk elementType (extractProps props) (convertStyle mergedStyle) children, ctx)

def convertChildrenF (env : Env) : Nat → Child → ConvCtx → Option (List IRNode × ConvCtx)
  | 0, _, _ => none
  | _ + 1, .null, ctx => some ([], ctx)
  | _ + 1, .bool _, ctx => some ([], ctx)
  | n + 1, .arr cs, ctx =>
    match cs with
    | [] => some ([], ctx)
    | c :: rest =>
      match convertChildrenF env n c ctx with
      | none => none
      | some (r₁, ctx₁) =>
        match convertChildrenF env n (.arr rest) ctx₁ with
        | none => none
        | some (r₂, ctx₂) => some (r₁ ++ r₂, ctx₂)
  | n + 1, .elem e, ctx =>
    match convertElemF env n e ctx with
    | none => none
    | some (node, ctx') => some ([node], ctx')
  | _ + 1, .str s, ctx =>
    some ([.mk .text [("content", .s s)] [] []], ctx)
  | _ + 1, .num v, ctx =>
    some ([.mk .text [("content", .s (jsNumToString v))] [] []], ctx)

end

/-- Source `convertToPage(node)`. -/
def convertToPage (node : IRNode) : IRPage :=
  let pageSize := resolvePageSize (olookup node.props "size")
  let pageSize :=
    if olookup node.props "orientation" = some (.s "landscape") then
      PageSize.mk pageSize.height pageSize.width
    else pageSize
  ⟨pageSize, normalizeMargin (olookup node.props "margin"), node.children⟩

/-- First comma-free reading of a metadata prop (`props.title as string |
undefined`). -/
def asOptStr : Option JsVal → Option String
  | some (.s v) => some v
  | _ => none

/-- Ascending insertion sort on the weights
(`Array.from(weights).sort((a, b) => a - b)`). -/
def insertQ (x : Q) : List Q → List Q
  | [] => [x]
  | y :: ys => if x.ble y then x :: y :: ys else y :: insertQ x ys

def sortQ (l : List Q) : List Q := l.foldr insertQ []

/-- The document-assembly tail of `reactToIR`, after the root element has
been converted: metadata extraction, page extraction, font/image map
flattening and the default-font fallback. -/
def buildDocument (rootNode : IRNode) (ctx : ConvCtx) : IRDocument :=
  let metadata : Option IRDocumentMetadata :=
    if rootNode.type = .document ∧
        (jsTruthy (olookup rootNode.props "title") ∨
         jsTruthy (olookup rootNode.props "author") ∨
         jsTruthy (olookup rootNode.props "subject")) then
      some ⟨asOptStr (olookup rootNode.props "title"),
            asOptStr (olookup rootNode.props "author"),
            asOptStr (olookup rootNode.props "subject"),
            some "PaperFlow"⟩
    else none
  let pages : List IRPage :=
    if rootNode.type = .document then
      (rootNode.children.filter (fun c => c.type = .page)).map convertToPage
    else if rootNode.type = .page then
      [convertToPage rootNode]
    else
      [⟨⟨595.28, 841.89⟩, normalizeMargin (some (.n 40)), [rootNode]⟩]
  let fonts : List IRFontUsage :=
    ctx.fonts.map fun (family, weights) => ⟨family, sortQ weights, ["normal"]⟩
  let fonts := if fonts.length = 0 then [⟨"Inter", [400], ["normal"]⟩] else fonts
  ⟨1, pages, fonts, ctx.images.map (·.2), metadata⟩

/-- Source `reactToIR(element)` (fuel-indexed through the converter). -/
def reactToIRF (env : Env) (fuel : Nat) (element : Elem) : Option IRDocument :=
  (convertElemF env fuel element ⟨[], []⟩).map fun (rootNode, ctx) =>
    buildDocument rootNode ctx

/-! ## The component bodies (`components.tsx`)

Each component destructures its props and re-wraps them in a host element via
`createElement(tag, props', children)`, which stores `children` back into
`props'.children`.  `className`/`style` flow through the rest-spread into the
dedicated slots unchanged. -/

/-- Remove a key from the ordered fields (for destructured props that are
re-added at a fixed position — in the sources the rest spread can never
contain them, so this is the identity on the rest). -/
def removeField (fields : List (String × JsVal)) (k : String) : List (String × JsVal) :=
  fields.filter (fun kv => kv.1 ≠ k)

/-- Source `Document({ children, ...props })` →
`createElement('paperflow-document', props, children)`. -/
def documentComp (p : Props) : Elem :=
  .mk (.host "paperflow-document") p

/-- Source `Page({ children, size = 'A4', margin = 40, orientation = 'portrait',
...props })` → `createElement('paperflow-page', { size, margin, orientation,
...props }, children)`. -/
def pageComp (p : Props) : Elem :=
  let size := (olookup p.fields "size").getD (.s "A4")
  let margin := (olookup p.fields "margin").getD (.n 40)
  let orientation := (olookup p.fields "orientation").getD (.s "portrait")
  let rest := removeField (removeField (removeField p.fields "size") "margin") "orientation"
  .mk (.host "paperflow-page")
    (.mk p.className p.style p.children
      ([("size", size), ("margin", margin), ("orientation", orientation)] ++ rest))

/-- Source `View({ children, wrap = true, ...props })` →
`createElement('paperflow-view', { wrap, ...props }, children)`. -/
def viewComp (p : Props) : Elem :=
  let wrap := (olookup p.fields "wrap").getD (.b true)
  .mk (.host "paperflow-view")
    (.mk p.className p.style p.children (("wrap", wrap) :: removeField p.fields "wrap"))

/-- Source `Text({ children, wrap = true, ...props })` →
`createElement('paperflow-text', { wrap, ...props }, children)`. -/
def textComp (p : Props) : Elem :=
  let wrap := (olookup p.fields "wrap").getD (.b true)
  .mk (.host "paperflow-text")
    (.mk p.className p.style p.children (("wrap", wrap) :: removeField p.fields "wrap"))

/-- Source `Image({ src, cache = true, ...props })` →
`createElement('paperflow-image', { src, cache, ...props })` (no children
argument; any `children` in the rest props flows through). -/
def imageComp (p : Props) : Elem :=
  let srcEntry :=
    match olookup p.fields "src" with
    | some v => [("src", v)]
    | none => []      -- `src: undefined`, dropped later by `extractProps`
  let cache := (olookup p.fields "cache").getD (.b true)
  let rest := removeField (removeField p.fields "src") "cache"
  .mk (.host "paperflow-image")
    (.mk p.className p.style p.children (srcEntry ++ [("cache", cache)] ++ rest))

/-- Source `Link({ children, href, ...props })` →
`createElement('paperflow-link', { href, ...props }, children)`. -/
def linkComp (p : Props) : Elem :=
  let hrefEntry :=
    match olookup p.fields "href" with
    | some v => [("href", v)]
    | none => []
  .mk (.host "paperflow-link")
    (.mk p.className p.style p.children (hrefEntry ++ removeField p.fields "href"))

/-- The component environment: indices name the six exported components. -/
def componentsEnv : Env := fun i p =>
  match i with
  | 0 => some (documentComp p)
  | 1 => some (pageComp p)
  | 2 => some (viewComp p)
  | 3 => some (textComp p)
  | 4 => some (imageComp p)
  | 5 => some (linkComp p)
  | _ => none

/-! ## Error codes (`errors.ts`)

Only the machine-readable code of a `PaperFlowError` is modelled; the
message, context bag and suggestion strings carry no behaviour. -/

inductive ErrCode where
  | FONT_LOAD_FAILED | FONT_FETCH_ERROR
  | IMAGE_LOAD_FAILED | IMAGE_FETCH_ERROR | INVALID_IMAGE_SOURCE
  | UNKNOWN_IMAGE_FORMAT | INVALID_BASE64_IMAGE | LOCAL_FILE_NOT_SUPPORTED
  | NO_PAGES | UNKNOWN_ENGINE | RENDER_FAILED
  deriving DecidableEq, Repr

/-! ## Font loader (`packages/core/src/fonts/loader.ts`) -/

/-- Source `normalizeFamily(family)`: strip quotes, lowercase, trim, collapse
whitespace runs to hyphens — in that order. -/
def normalizeFamily (family : String) : String :=
  collapseWsToHyphen (jsTrim (jsToLower (stripQuotes family)))

/-- The `weightMap` of the loader's `normalizeWeight`. -/
def loaderWeightTable (w : String) : Option Q :=
  match w with
  | "thin" => some 100
  | "hairline" => some 100
  | "extralight" => some 200
  | "ultralight" => some 200
  | "light" => some 300
  | "normal" => some 400
  | "regular" => some 400
  | "medium" => some 500
  | "semibold" => some 600
  | "demibold" => some 600
  | "bold" => some 700
  | "extrabold" => some 800
  | "ultrabold" => some 800
  | "black" => some 900
  | "heavy" => some 900
  | _ => none

/-- Source `normalizeWeight(weight)` on a style value (`undefined` → `none`,
number → itself, string → table lookup else `parseInt || 400`; other value
kinds cannot occur on the typed field). -/
def normalizeWeight : Option JsVal → Option Q
  | some (.n w) => some w
  | some (.s w) =>
    some ((loaderWeightTable (jsToLower w)).getD (Q.ofInt (jsParseIntOr400 w)))
  | _ => none

/-- Reading `node.style.fontStyle ?? 'normal'` (any non-string value also
falls back, matching the `??` on `null`; `undefined` is absence). -/
def styleFontStyle (style : Obj) : String :=
  match olookup style "fontStyle" with
  | some (.s v) => v
  | _ => "normal"

/-- Reading `node.style.fontFamily` with the `if (family)` truthiness test:
the declared family string, when present and non-empty. -/
def styleFontFamily (style : Obj) : Option String :=
  match olookup style "fontFamily" with
  | some (.s v) => if v ≠ "" then some v else none
  | _ => none

/-- Insertion-ordered set add (JS `Set.prototype.add`). -/
def addSet {α : Type} [DecidableEq α] (l : List α) (x : α) : List α :=
  if l.any (· = x) then l else l ++ [x]

/-- The running font map of `detectFontsFromIR`:
family → (weights set, styles set), insertion-ordered. -/
abbrev DetectMap := List (String × (List Q × List String))

/-- One node's contribution to the font map (the body of `walk`'s `if
(family)` block). -/
def addDetected (m : DetectMap) (fam : String) (w : Q) (st : String) : DetectMap :=
  match m with
  | [] => [(fam, ([w], [st]))]
  | (f, (ws, ss)) :: rest =>
    if f = fam then (f, (addSet ws w, addSet ss st)) :: rest
    else (f, (ws, ss)) :: addDetected rest fam w st

mutual

/-- Source `walk(node)` inside `detectFontsFromIR`: record the node's
declared font, then recurse into its children in order. -/
def walkFonts (node : IRNode) (m : DetectMap) : DetectMap :=
  match node with
  | .mk _ _ style children =>
    let m :=
      match styleFontFamily style with
      | some family =>
        addDetected m (normalizeFamily family)
          ((normalizeWeight (olookup style "fontWeight")).getD 400)
          (styleFontStyle style)
      | none => m
    walkFontsList children m

def walkFontsList (nodes : List IRNode) (m : DetectMap) : DetectMap :=
  match nodes with
  | [] => m
  | c :: cs => walkFontsList cs (walkFonts c m)

end

/-- Source `detectFontsFromIR(ir)`: walk every page's children, fall back to
the default font (`normalizeFamily('Inter') = "inter"`, weight 400, style
normal) when nothing was detected, and flatten the map (weights sorted
ascending). -/
def detectFontsFromIR (ir : IRDocument) : List IRFontUsage :=
  let m : DetectMap := ir.pages.foldl (fun m page => walkFontsList page.children m) []
  let m := if m.length = 0 then [(normalizeFamily "Inter", ([400], ["normal"]))] else m
  m.map fun (family, (ws, ss)) => ⟨family, sortQ ws, ss⟩

/-- A resolved font. -/
structure LoadedFont where
  family : String
  weight : Q
  style : String
  data : List Nat
  deriving DecidableEq, Repr

/-- Source `loadFont(family, weight, style)` performs the cache → custom
registry → Google-Fonts-fetch resolution; every step is network- or
process-state-dependent, so the whole resolver is an uninterpreted parameter
(the source guarantees any failure surfaces as a `FONT_LOAD_FAILED`
`PaperFlowError`). -/
abbrev FontResolver := String → Q → String → Except ErrCode LoadedFont

/-- The request list `loadFontsForDocument` fires: every `(family, weight,
style)` combination of the usage manifest, in nesting order. -/
def fontRequests (usage : List IRFontUsage) : List (String × Q × String) :=
  usage.flatMap fun u => u.weights.flatMap fun w => u.styles.map fun s => (u.family, w, s)

/-- Fulfilled values of a settled promise list, in order (the `fonts`
accumulation loop of `loadFontsForDocument`). -/
def exceptOks {e a : Type} (l : List (Except e a)) : List a :=
  l.filterMap fun r => match r with | .ok v => some v | .error _ => none

/-- Rejection reasons of a settled promise list, in order (the `errors`
accumulation loop). -/
def exceptErrs {e a : Type} (l : List (Except e a)) : List e :=
  l.filterMap fun r => match r with | .ok _ => none | .error err => some err

/-- The tail of `loadFontsForDocument` after `detectFontsFromIR`: settle all
requests (`Promise.allSettled`), collect fulfilled values and reasons in
request order, throw the first reason iff nothing was fulfilled but something
was rejected (`if (fonts.length === 0 && errors.length > 0) throw errors[0]`),
else return the fulfilled fonts. -/
def loadFontsFromUsage (resolver : FontResolver) (usage : List IRFontUsage) :
    Except ErrCode (List LoadedFont) :=
  let results := (fontRequests usage).map fun r => resolver r.1 r.2.1 r.2.2
  match exceptOks results, exceptErrs results with
  | [], err :: _ => .error err
  | fonts, _ => .ok fonts

/-- Source `loadFontsForDocument(ir)`. -/
def loadFontsForDocumentM (resolver : FontResolver) (ir : IRDocument) :
    Except ErrCode (List LoadedFont) :=
  loadFontsFromUsage resolver (detectFontsFromIR ir)

/-! ## Image loader (`packages/core/src/images/loader.ts`) -/

inductive ImgFormat where
  | png | jpeg | webp | gif | svg
  deriving DecidableEq, Repr

structure LoadedImage where
  id : String
  data : List Nat
  format : ImgFormat
  deriving DecidableEq, Repr

/-- An error escaping the loader: a `PaperFlowError` with its code, or a
non-PaperFlow exception (`atob`'s `InvalidCharacterError` on malformed
base64). -/
inductive LoadErr where
  | pf (code : ErrCode)
  | native
  deriving DecidableEq, Repr

/-- Image sources (`ImageSource`): a string (URL / data URI / bare path), raw
bytes (`ArrayBuffer` and `Uint8Array` collapse to one byte-list case — the
source copies a `Uint8Array` into a fresh buffer and proceeds identically),
or a deferred nullary function producing one of those (its settled value,
since the model has no scheduler). -/
inductive ImgSrcRes where
  | rstr (s : String)
  | rbuf (bytes : List Nat)
  deriving DecidableEq, Repr

inductive ImgSrc where
  | str (s : String)
  | buf (bytes : List Nat)
  | fn (resolved : ImgSrcRes)
  deriving DecidableEq, Repr

/-- Outcome of `fetch(url)` + `response.arrayBuffer()`: body bytes, a
non-success HTTP status, or a thrown network error. -/
inductive FetchOutcome where
  | ok (bytes : List Nat)
  | httpError (status : Nat)
  | netThrow
  deriving DecidableEq, Repr

/-- The loader's environment: the network, the platform base64 decoder
(`none` = `atob` throws), and the current contents of the process-wide URL
cache (cache *writes* are not modelled — entries are write-once and no claim
observes cross-call state). -/
structure ImgDeps where
  fetchImg : String → FetchOutcome
  atobFn : String → Option (List Nat)
  cache : List (String × LoadedImage)

/-- Wrap-around to a signed 32-bit value (JS `| 0` / `& -1` coercion). -/
def toInt32 (i : Int) : Int :=
  let m := i % 4294967296
  if m ≥ 2147483648 then m - 4294967296 else m

/-- One step of `generateImageId`'s hash loop:
`hash = ((hash << 5) - hash) + c; hash = hash & hash`. -/
def hashStep (hash : Int) (c : Nat) : Int :=
  toInt32 (toInt32 (hash * 32) - hash + c)

/-- Base-36 digits of a natural number (`Math.abs(hash).toString(36)`). -/
def base36 (n : Nat) : String :=
  ⟨go (n + 1) n⟩
where
  digitChar (d : Nat) : Char :=
    if d < 10 then Char.ofNat ('0'.toNat + d) else Char.ofNat ('a'.toNat + d - 10)
  /-- Fuel-indexed digit emission; `n + 1` units always suffice since the
  value shrinks by a factor of 36 each step. -/
  go : Nat → Nat → List Char
    | 0, _ => []
    | _ + 1, m =>
      if m < 36 then [digitChar m]
      else go (m / 36 + 1) (m / 36) ++ [digitChar (m % 36)]

/-- Source `generateImageId` on a string source (`charCodeAt` over the first
1000 characters; BMP characters only, which covers every URL/data URI the
repository meets). -/
def generateImageIdStr (source : String) : String :=
  let hash := (source.data.take 1000).foldl (fun h c => hashStep h c.toNat) 0
  "img_" ++ base36 hash.natAbs

/-- Source `generateImageId` on a byte buffer (first 100 bytes, length
suffix). -/
def generateImageIdBuf (arr : List Nat) : String :=
  let hash := (arr.take 100).foldl (fun h b => hashStep h b) 0
  "img_" ++ base36 hash.natAbs ++ "_" ++ toString arr.length

/-- WHATWG UTF-8 decoding with U+FFFD replacement — the behaviour of
`new TextDecoder().decode(...)`: on a malformed sequence, emit a replacement
character and resume at the offending byte (maximal-subpart policy);
a truncated final sequence also yields a replacement character.  (A JS string
stores astral code points as surrogate pairs; for the ASCII substring search
performed on the result the two representations agree.)  The first argument
is fuel, instantiated with the byte count — each step consumes at least one
byte. -/
def utf8Go : Nat → List Nat → List Char
  | 0, _ => []
  | _, [] => []
  | fuel + 1, b :: rest =>
    if b ≤ 0x7F then Char.ofNat b :: utf8Go fuel rest
    else if 0xC2 ≤ b ∧ b ≤ 0xDF then
      match rest with
      | [] => ['�']
      | b2 :: rest2 =>
        if 0x80 ≤ b2 ∧ b2 ≤ 0xBF then
          Char.ofNat ((b - 0xC0) * 64 + (b2 - 0x80)) :: utf8Go fuel rest2
        else '�' :: utf8Go fuel rest
    else if 0xE0 ≤ b ∧ b ≤ 0xEF then
      let lo := if b = 0xE0 then 0xA0 else 0x80
      let hi := if b = 0xED then 0x9F else 0xBF
      match rest with
      | [] => ['�']
      | b2 :: rest2 =>
        if lo ≤ b2 ∧ b2 ≤ hi then
          match rest2 with
          | [] => ['�']
          | b3 :: rest3 =>
            if 0x80 ≤ b3 ∧ b3 ≤ 0xBF then
              Char.ofNat ((b - 0xE0) * 4096 + (b2 - 0x80) * 64 + (b3 - 0x80)) ::
                utf8Go fuel rest3
            else '�' :: utf8Go fuel rest2
        else '�' :: utf8Go fuel rest
    else if 0xF0 ≤ b ∧ b ≤ 0xF4 then
      let lo := if b = 0xF0 then 0x90 else 0x80
      let hi := if b = 0xF4 then 0x8F else 0xBF
      match rest with
      | [] => ['�']
      | b2 :: rest2 =>
        if lo ≤ b2 ∧ b2 ≤ hi then
          match rest2 with
          | [] => ['�']
          | b3 :: rest3 =>
            if 0x80 ≤ b3 ∧ b3 ≤ 0xBF then
              match rest3 with
              | [] => ['�']
              | b4 :: rest4 =>
                if 0x80 ≤ b4 ∧ b4 ≤ 0xBF then
                  Char.ofNat ((b - 0xF0) * 262144 + (b2 - 0x80) * 4096 +
                      (b3 - 0x80) * 64 + (b4 - 0x80)) :: utf8Go fuel rest4
                else '�' :: utf8Go fuel rest3
            else '�' :: utf8Go fuel rest2
        else '�' :: utf8Go fuel rest
    else '�' :: utf8Go fuel rest

def utf8DecodeReplace (bytes : List Nat) : List Char :=
  utf8Go bytes.length bytes

/-- JS `String.prototype.includes` on character lists. -/
def containsSub : List Char → List Char → Bool
  | [], pat => pat.isEmpty
  | hay@(_ :: rest), pat => pat.isPrefixOf hay || containsSub rest pat

/-- The SVG text check of `detectImageFormat`: decode the first 100 bytes and
look for leading markup. -/
def svgTextCheck (arr : List Nat) : Bool :=
  let text := utf8DecodeReplace (arr.take 100)
  containsSub text "<?xml".data || containsSub text "<svg".data

/-- Source `detectImageFormat(data)`: magic-byte sniffing (out-of-range reads
are `undefined` in JS and fail every comparison, hence `Option` equality),
then the SVG text check, else the distinguished error. -/
def detectImageFormat (arr : List Nat) : Except ErrCode ImgFormat :=
  if arr[0]? = some 0x89 ∧ arr[1]? = some 0x50 ∧ arr[2]? = some 0x4e ∧
      arr[3]? = some 0x47 then .ok .png
  else if arr[0]? = some 0xff ∧ arr[1]? = some 0xd8 ∧ arr[2]? = some 0xff then .ok .jpeg
  else if arr[0]? = some 0x52 ∧ arr[1]? = some 0x49 ∧ arr[2]? = some 0x46 ∧
      arr[3]? = some 0x46 ∧ arr[8]? = some 0x57 ∧ arr[9]? = some 0x45 ∧
      arr[10]? = some 0x42 ∧ arr[11]? = some 0x50 then .ok .webp
  else if arr[0]? = some 0x47 ∧ arr[1]? = some 0x49 ∧ arr[2]? = some 0x46 ∧
      arr[3]? = some 0x38 then .ok .gif
  else if svgTextCheck arr then .ok .svg
  else .error .UNKNOWN_IMAGE_FORMAT

/-- Source `normalizeFormat(format)`. -/
def normalizeFormat (format : String) : ImgFormat :=
  match jsToLower format with
  | "png" => .png
  | "jpg" => .jpeg
  | "jpeg" => .jpeg
  | "webp" => .webp
  | "gif" => .gif
  | "svg" => .svg
  | "svg+xml" => .svg
  | _ => .png

/-- The match of `/^data:image\/(\w+);base64,(.+)$/` against a string (no
line terminators in the two groups; JS `$` without the `m` flag matches only
at the very end).  The regex engine's backtracking over `(\w+)` cannot help:
word characters can never equal the `;` the pattern demands next, so the
match succeeds exactly when the *maximal* word-character run after
`data:image/` is non-empty and is followed by `;base64,` and a non-empty
remainder. -/
def dataUriParse (s : String) : Option (String × String) :=
  let cs := s.data
  let pre := "data:image/".data
  if pre.isPrefixOf cs then
    let rest := cs.drop pre.length
    let fmt := rest.takeWhile isWordChar
    let after := rest.dropWhile isWordChar
    if fmt ≠ [] ∧ (";base64,".data.isPrefixOf after) then
      let payload := after.drop 8
      if payload ≠ [] ∧ payload.all
          (fun c => ¬ (c = '\n' ∨ c = '\r' ∨ c = '\u2028' ∨ c = '\u2029')) then
        some (⟨fmt⟩, ⟨payload⟩)
      else none
    else none
  else none

/-- Source `loadFromDataUri(dataUri)`: strict pattern match (else the
distinguished `INVALID_BASE64_IMAGE` error), format normalization, `atob`
decode. -/
def loadFromDataUri (deps : ImgDeps) (dataUri : String) : Except LoadErr LoadedImage :=
  match dataUriParse dataUri with
  | none => .error (.pf .INVALID_BASE64_IMAGE)
  | some (formatStr, base64) =>
    let format := normalizeFormat formatStr
    match deps.atobFn base64 with
    | none => .error .native
    | some bytes => .ok ⟨generateImageIdStr dataUri, bytes, format⟩

/-- Source `loadFromBuffer(buffer)`. -/
def loadFromBuffer (buffer : List Nat) : Except LoadErr LoadedImage :=
  match detectImageFormat buffer with
  | .ok format => .ok ⟨generateImageIdBuf buffer, buffer, format⟩
  | .error e => .error (.pf e)

/-- Source `loadFromUrl(url, options)`: URL-keyed cache, fetch with the
distinguished status / network errors, format sniffing.  The second component
is the list of URLs actually fetched. -/
def loadFromUrl (deps : ImgDeps) (url : String) :
    Except LoadErr LoadedImage × List String :=
  match (deps.cache.find? (fun kv => kv.1 = url)).map Prod.snd with
  | some cached => (.ok cached, [])
  | none =>
    match deps.fetchImg url with
    | .ok bytes =>
      match detectImageFormat bytes with
      | .ok format => (.ok ⟨generateImageIdStr url, bytes, format⟩, [url])
      | .error e => (.error (.pf e), [url])
    | .httpError _ => (.error (.pf .IMAGE_LOAD_FAILED), [url])
    | .netThrow => (.error (.pf .IMAGE_FETCH_ERROR), [url])

/-- The string dispatch of `loadImage`: data URI, then http(s) URL, then the
bare-local-path rejection. -/
def loadImageStr (deps : ImgDeps) (s : String) :
    Except LoadErr LoadedImage × List String :=
  if jsStartsWith s "data:" then (loadFromDataUri deps s, [])
  else if jsStartsWith s "http://" ∨ jsStartsWith s "https://" then loadFromUrl deps s
  else (.error (.pf .LOCAL_FILE_NOT_SUPPORTED), [])

/-- Source `loadImage(src, options)`: deferred functions are awaited and
re-dispatched, buffers sniffed directly, strings dispatched on their scheme.
(The trailing `INVALID_IMAGE_SOURCE` branch of the source is unreachable
over the closed `ImageSource` type and has no counterpart here.)  The second
component is the list of URLs fetched during the call. -/
def loadImage (deps : ImgDeps) : ImgSrc → Except LoadErr LoadedImage × List String
  | .fn (.rstr s) => loadImageStr deps s
  | .fn (.rbuf bytes) => (loadFromBuffer bytes, [])
  | .buf bytes => (loadFromBuffer bytes, [])
  | .str s => loadImageStr deps s

/-! ## Derived predicates and concrete fixtures used by the claims -/

/-- An environment whose component `0` always returns another composite of
the same index — `const Loop = (props) => <Loop {...props} />`. -/
def selfLoopEnv : Env := fun _ p => some (.mk (.comp 0) p)

/-- The self-referential composite element. -/
def selfLoopElem : Elem := .mk (.comp 0) Props.empty

/-- Termination of the conversion on an element: some amount of fuel makes
`reactToIR` return. -/
def convTerminates (env : Env) (e : Elem) : Prop :=
  ∃ fuel, (reactToIRF env fuel e).isSome

mutual

/-- The text a `text` IR node carries, extracted the way the rendering
engine does (`engine-satori`): `node.props.content ?? ''` when the node has
no children, else the concatenated text of its children. -/
def textContent (node : IRNode) : String :=
  match node with
  | .mk _ props _ children =>
    if children.length > 0 then textContentList children
    else match olookup props "content" with
      | some (.s v) => v
      | _ => ""

def textContentList (nodes : List IRNode) : String :=
  match nodes with
  | [] => ""
  | c :: cs => textContent c ++ textContentList cs

end

mutual

/-- Whether a node's subtree declares any (truthy, string) `fontFamily` —
"styles declare no font family at all" is the `false` case. -/
def nodeHasFontFamily : IRNode → Bool
  | .mk _ _ style children => (styleFontFamily style).isSome || nodesHaveFontFamily children

def nodesHaveFontFamily : List IRNode → Bool
  | [] => false
  | c :: cs => nodeHasFontFamily c || nodesHaveFontFamily cs

end

/-- The weight `trackFonts` records: `style.fontWeight ?? 400`, strings
through `parseWeight`. -/
def trackWeightOf (st : Obj) : Q :=
  match olookup st "fontWeight" with
  | some (.n w) => w
  | some (.s w) => parseWeight w
  | _ => 400

/-- The tree `<Document><Page><Text>Hello</Text></Page></Document>`
(component indices per `componentsEnv`: 0 Document, 1 Page, 3 Text). -/
def helloTree : Elem :=
  .mk (.comp 0) (.mk none none
    (.elem (.mk (.comp 1) (.mk none none
      (.elem (.mk (.comp 3) (.mk none none (.str "Hello") [])))
      [])))
    [])

/-- The converted root node of `helloTree` (checked by `rfl` below). -/
def helloRoot : IRNode :=
  .mk .document [] []
    [.mk .page [("size", .s "A4"), ("margin", .n 40), ("orientation", .s "portrait")] []
      [.mk .text [("wrap", .b true)] []
        [.mk .text [("content", .s "Hello")] [] []]]]

/-- A document with two `Text` nodes whose styles declare font families
differing only in letter case (`"Inter"` vs `"inter"`). -/
def caseTree : Elem :=
  .mk (.comp 0) (.mk none none
    (.elem (.mk (.comp 1) (.mk none none
      (.arr [.elem (.mk (.comp 3) (.mk none (some [("fontFamily", .s "Inter")]) (.str "A") [])),
             .elem (.mk (.comp 3) (.mk none (some [("fontFamily", .s "inter")]) (.str "B") []))])
      [])))
    [])

/-- A resolver that succeeds on every request. -/
def interResolver : FontResolver := fun f w s => .ok ⟨f, w, s, []⟩

/-- A two-request usage manifest for exercising the settle-all policy. -/
def c3Usage : List IRFontUsage := [⟨"inter", [400, 700], ["normal"]⟩]

/-- A resolver failing weight 400 and succeeding weight 700. -/
def c3OkResolver : FontResolver := fun f w s =>
  if w = 700 then .ok ⟨f, w, s, []⟩ else .error .FONT_LOAD_FAILED

/-- A resolver failing everything, with distinct errors to observe which one
propagates. -/
def c3FailResolver : FontResolver := fun _ w _ =>
  if w = 400 then .error .FONT_FETCH_ERROR else .error .FONT_LOAD_FAILED

/-- Concrete image-loader environment for witnesses. -/
def c7Deps : ImgDeps := ⟨fun _ => .netThrow, fun _ => none, []⟩

def pngBytes : List Nat := [0x89, 0x50, 0x4e, 0x47, 0x0d, 0x0a, 0x1a, 0x0a]

def jpegBytes : List Nat := [0xff, 0xd8, 0xff, 0xe0]

def webpBytes : List Nat := [0x52, 0x49, 0x46, 0x46, 0, 0, 0, 0, 0x57, 0x45, 0x42, 0x50]

def gifBytes : List Nat := [0x47, 0x49, 0x46, 0x38, 0x39, 0x61]

def unknownBytes : List Nat := [0x00, 0x01, 0x02]

/-! ## Object-semantics lemmas -/
theorem olookup_oassign (o : Obj) (k k' : String) (v : JsVal) :
    olookup (oassign o k v) k' = if k' = k then some v else olookup o k' := by
  induction o with
  | nil => simp [oassign, olookup]; split <;> simp_all [olookup, eq_comm]
  | cons hd tl ih =>
    obtain ⟨k₀, v₀⟩ := hd
    by_cases h₀ : k₀ = k <;> by_cases h₁ : k₀ = k' <;>
      simp_all [oassign, olookup] <;> simp_all [eq_comm]


theorem olookup_oassignAll (o : Obj) (ws : List (String × JsVal)) (k : String) :
    olookup (oassignAll o ws) k = oOr (lastWrite ws k) (olookup o k) := by
  induction ws generalizing o with
  | nil => simp [oassignAll, lastWrite, oOr]
  | cons hd tl ih =>
    obtain ⟨k₀, v₀⟩ := hd
    simp only [oassignAll, List.foldl_cons] at *
    rw [ih, lastWrite]
    rcases h : lastWrite tl k with _ | v'
    · by_cases hk : k₀ = k
      · subst hk; simp [oOr, olookup_oassign]
      · simp [oOr, olookup_oassign, hk, Ne.symm hk]
    · simp [oOr]

theorem oassignAll_append (o : Obj) (ws₁ ws₂ : List (String × JsVal)) :
    oassignAll o (ws₁ ++ ws₂) = oassignAll (oassignAll o ws₁) ws₂ := by
  simp [oassignAll]

theorem lastWrite_append (ws₁ ws₂ : List (String × JsVal)) (k : String) :
    lastWrite (ws₁ ++ ws₂) k = oOr (lastWrite ws₂ k) (lastWrite ws₁ k) := by
  induction ws₁ with
  | nil => cases h : lastWrite ws₂ k <;> simp [lastWrite, oOr, h]
  | cons hd tl ih =>
    obtain ⟨k₀, v₀⟩ := hd
    cases h : lastWrite ws₂ k with
    | none => cases h' : lastWrite tl k <;> simp [lastWrite, ih, oOr, h, h']
    | some v => simp [lastWrite, ih, oOr, h]

/-! ## Parser lemmas -/

theorem parseTailwind_foldl_flatMap (ts : List String) (o : Obj) :
    ts.foldl (fun style cls => parseClass cls style) o =
      oassignAll o (ts.flatMap tokenWrites) := by
  induction ts generalizing o with
  | nil => simp [oassignAll]
  | cons hd tl ih =>
    simp only [List.foldl_cons, List.flatMap_cons, oassignAll_append]
    exact ih (parseClass hd o)

theorem lastWrite_flatMap_none (ts : List String) (k : String)
    (h : ∀ w ∈ ts, lastWrite (tokenWrites w) k = none) :
    lastWrite (ts.flatMap tokenWrites) k = none := by
  induction ts with
  | nil => simp [lastWrite]
  | cons hd tl ih =>
    have := h hd (by simp)
    simp only [List.flatMap_cons]
    rw [lastWrite_append, ih (fun w hw => h w (by simp [hw])), this]
    rfl

theorem olookup_parseTailwindClasses (s : String) (hs : s ≠ "") (k : String) :
    olookup (parseTailwindClasses s) k =
      lastWrite ((jsTokens s).flatMap tokenWrites) k := by
  rw [parseTailwindClasses, if_neg hs, parseTailwind_foldl_flatMap,
    olookup_oassignAll]
  cases h : lastWrite ((jsTokens s).flatMap tokenWrites) k <;> simp [oOr, olookup]

theorem olookup_eq_none_of_not_mem (l : Obj) (k : String)
    (h : k ∉ l.map Prod.fst) :
    olookup l k = none := by
  induction l with
  | nil => rfl
  | cons hd tl ih =>
    obtain ⟨k₀, v₀⟩ := hd
    simp only [List.map_cons, List.mem_cons] at h
    push_neg at h
    rw [olookup, if_neg (by intro hh; exact h.1 hh.symm), ih h.2]

theorem lastWrite_eq_olookup_of_nodup (l : Obj) (k : String)
    (hnd : (l.map Prod.fst).Nodup) :
    lastWrite l k = olookup l k := by
  induction l with
  | nil => rfl
  | cons hd tl ih =>
    obtain ⟨k₀, v₀⟩ := hd
    simp only [List.map_cons, List.nodup_cons] at hnd
    rw [lastWrite, olookup, ih hnd.2]
    by_cases hk : k₀ = k
    · subst hk
      rw [olookup_eq_none_of_not_mem tl k₀ hnd.1]
    · cases olookup tl k
      · simp [hk]
      · simp [hk]

/-! ## Unwrap lemmas -/

theorem unwrapF_selfLoop (n : Nat) : unwrapF selfLoopEnv n selfLoopElem = none := by
  induction n with
  | zero => rfl
  | succ n ih => simpa [unwrapF, selfLoopEnv, selfLoopElem] using ih

theorem unwrap_settled (env : Env) (n : Nat) (e u : Elem)
    (h : unwrapF env n e = some u) :
    (∃ tag, u.ty = .host tag) ∨ (∃ i, u.ty = .comp i ∧ env i u.props = none) := by
  induction n generalizing e with
  | zero => simp [unwrapF] at h
  | succ n ih =>
    match e with
    | .mk (.host t) p =>
      simp [unwrapF] at h
      subst h
      exact .inl ⟨t, rfl⟩
    | .mk (.comp i) p =>
      rw [unwrapF] at h
      cases henv : env i p with
      | none =>
        rw [henv] at h
        simp at h
        subst h
        exact .inr ⟨i, rfl, henv⟩
      | some e' =>
        rw [henv] at h
        exact ih e' h

/-! ## Font-tracking lemmas -/

theorem trackFonts_eval (st : Obj) (f : String) (ctx : ConvCtx)
    (h : olookup st "fontFamily" = some (.s f)) (hf : f ≠ "")
    (hk : trackFontKey f ≠ "") :
    trackFonts st ctx =
      { ctx with fonts := addFontWeight ctx.fonts (trackFontKey f) (trackWeightOf st) } := by
  rw [trackFonts, h]
  simp [hf, hk, trackWeightOf]

/-! ## Settled-promise lemmas -/

theorem exceptOks_all_error {e a : Type} (l : List (Except e a))
    (h : ∀ r ∈ l, ∀ v, r ≠ .ok v) : exceptOks l = [] := by
  induction l with
  | nil => rfl
  | cons hd tl ih =>
    cases hd with
    | ok v => exact absurd rfl (h _ (by simp) v)
    | error err =>
      rw [exceptOks, List.filterMap_cons]
      exact ih fun r hr => h r (by simp [hr])

theorem exceptOks_ne_nil {e a : Type} (l : List (Except e a)) (v : a)
    (h : Except.ok v ∈ l) : exceptOks l ≠ [] := by
  intro hempty
  have hnone := List.filterMap_eq_nil_iff.mp hempty _ h
  simp at hnone

theorem exceptBoth_nil {e a : Type} (l : List (Except e a))
    (h1 : exceptOks l = []) (h2 : exceptErrs l = []) : l = [] := by
  cases l with
  | nil => rfl
  | cons hd tl =>
    cases hd with
    | ok v => simp [exceptOks, List.filterMap_cons] at h1
    | error err => simp [exceptErrs, List.filterMap_cons] at h2

theorem fontRequests_ne_nil (usage : List IRFontUsage) (hne : usage ≠ [])
    (hwf : ∀ u ∈ usage, u.weights ≠ [] ∧ u.styles ≠ []) :
    fontRequests usage ≠ [] := by
  rcases usage with _ | ⟨u, rest⟩
  · exact absurd rfl hne
  · obtain ⟨hw, hs⟩ := hwf u (by simp)
    rcases hws : u.weights with _ | ⟨w, ws⟩
    · exact absurd hws hw
    · rcases hss : u.styles with _ | ⟨s, ss⟩
      · exact absurd hss hs
      · simp [fontRequests, hws, hss]

/-! ## Font-detection lemmas -/

theorem insertQ_ne_nil (x : Q) (l : List Q) : insertQ x l ≠ [] := by
  cases l with
  | nil => simp [insertQ]
  | cons y ys =>
    rw [insertQ]
    split <;> simp

theorem sortQ_ne_nil (l : List Q) (h : l ≠ []) : sortQ l ≠ [] := by
  cases l with
  | nil => exact absurd rfl h
  | cons x xs => exact insertQ_ne_nil x (sortQ xs)

mutual

theorem walkFonts_no_font (node : IRNode) (m : DetectMap)
    (h : nodeHasFontFamily node = false) : walkFonts node m = m := by
  match node with
  | .mk t p style children =>
    rw [nodeHasFontFamily] at h
    simp only [Bool.or_eq_false_iff] at h
    rw [walkFonts]
    rcases hf : styleFontFamily style with _ | fam
    · exact walkFontsList_no_font children m h.2
    · rw [hf] at h
      simp [Option.isSome] at h

theorem walkFontsList_no_font (nodes : List IRNode) (m : DetectMap)
    (h : nodesHaveFontFamily nodes = false) : walkFontsList nodes m = m := by
  match nodes with
  | [] => rfl
  | c :: cs =>
    rw [nodesHaveFontFamily] at h
    simp only [Bool.or_eq_false_iff] at h
    rw [walkFontsList, walkFonts_no_font c m h.1]
    exact walkFontsList_no_font cs m h.2

end

theorem addDetected_entries_ne_nil (m : DetectMap) (fam : String) (w : Q) (st : String)
    (h : ∀ entry ∈ m, entry.2.1 ≠ [] ∧ entry.2.2 ≠ []) :
    ∀ entry ∈ addDetected m fam w st, entry.2.1 ≠ [] ∧ entry.2.2 ≠ [] := by
  induction m with
  | nil =>
    intro entry hmem
    simp [addDetected] at hmem
    subst hmem
    simp
  | cons hd tl ih =>
    obtain ⟨f, ws, ss⟩ := hd
    intro entry hmem
    rw [addDetected] at hmem
    by_cases hf : f = fam
    · rw [if_pos hf] at hmem
      rcases List.mem_cons.mp hmem with hmem | hmem
      · subst hmem
        have h0 := h (f, ws, ss) (by simp)
        constructor
        · simp only [addSet]
          split
          · exact h0.1
          · simp
        · simp only [addSet]
          split
          · exact h0.2
          · simp
      · exact h entry (by simp [hmem])
    · rw [if_neg hf] at hmem
      rcases List.mem_cons.mp hmem with hmem | hmem
      · subst hmem
        exact h (f, ws, ss) (by simp)
      · exact ih (fun e he => h e (by simp [he])) entry hmem

mutual

theorem walkFonts_entries_ne_nil (node : IRNode) (m : DetectMap)
    (h : ∀ entry ∈ m, entry.2.1 ≠ [] ∧ entry.2.2 ≠ []) :
    ∀ entry ∈ walkFonts node m, entry.2.1 ≠ [] ∧ entry.2.2 ≠ [] := by
  match node with
  | .mk t p style children =>
    rw [walkFonts]
    rcases hf : styleFontFamily style with _ | fam
    · exact walkFontsList_entries_ne_nil children m h
    · exact walkFontsList_entries_ne_nil children _
        (addDetected_entries_ne_nil m _ _ _ h)

theorem walkFontsList_entries_ne_nil (nodes : List IRNode) (m : DetectMap)
    (h : ∀ entry ∈ m, entry.2.1 ≠ [] ∧ entry.2.2 ≠ []) :
    ∀ entry ∈ walkFontsList nodes m, entry.2.1 ≠ [] ∧ entry.2.2 ≠ [] := by
  match nodes with
  | [] => exact h
  | c :: cs =>
    rw [walkFontsList]
    exact walkFontsList_entries_ne_nil cs _ (walkFonts_entries_ne_nil c m h)

end

theorem detectFonts_no_font (ir : IRDocument)
    (h : ∀ p ∈ ir.pages, nodesHaveFontFamily p.children = false) :
    detectFontsFromIR ir = [⟨"inter", [400], ["normal"]⟩] := by
  have hfold : ∀ (ps : List IRPage), (∀ p ∈ ps, nodesHaveFontFamily p.children = false) →
      ps.foldl (fun m page => walkFontsList page.children m) ([] : DetectMap) = [] := by
    intro ps hps
    induction ps with
    | nil => rfl
    | cons hd tl ih =>
      rw [List.foldl_cons, walkFontsList_no_font hd.children [] (hps hd (by simp))]
      exact ih fun p hp => hps p (by simp [hp])
  simp only [detectFontsFromIR]
  rw [hfold ir.pages h]
  decide

theorem detectFonts_wf (ir : IRDocument) :
    detectFontsFromIR ir ≠ [] ∧
    ∀ u ∈ detectFontsFromIR ir, u.weights ≠ [] ∧ u.styles ≠ [] := by
  have hfold : ∀ entry ∈ ir.pages.foldl (fun m page => walkFontsList page.children m)
      ([] : DetectMap), entry.2.1 ≠ [] ∧ entry.2.2 ≠ [] := by
    have hgen : ∀ (ps : List IRPage) (m : DetectMap),
        (∀ entry ∈ m, entry.2.1 ≠ [] ∧ entry.2.2 ≠ []) →
        ∀ entry ∈ ps.foldl (fun m page => walkFontsList page.children m) m,
          entry.2.1 ≠ [] ∧ entry.2.2 ≠ [] := by
      intro ps
      induction ps with
      | nil => intro m hm; exact hm
      | cons hd tl ih =>
        intro m hm
        rw [List.foldl_cons]
        exact ih _ (walkFontsList_entries_ne_nil hd.children m hm)
    exact hgen ir.pages [] (by simp)
  simp only [detectFontsFromIR]
  generalize hm : ir.pages.foldl (fun m page => walkFontsList page.children m)
      ([] : DetectMap) = m0 at hfold ⊢
  rcases m0 with _ | ⟨entry, rest⟩
  · constructor
    · simp
    · intro u hu
      simp at hu
      subst hu
      decide
  · constructor
    · simp
    · intro u hu
      simp only [List.length_cons, if_neg (by omega : ¬ rest.length + 1 = 0)] at hu
      rcases List.mem_map.mp hu with ⟨⟨fam, ws, ss⟩, hmem, hmap⟩
      have hent := hfold _ hmem
      rw [← hmap]
      exact ⟨sortQ_ne_nil ws hent.1, hent.2⟩

theorem loadFonts_ok_ne_nil (resolver : FontResolver) (ir : IRDocument)
    (fonts : List LoadedFont)
    (h : loadFontsForDocumentM resolver ir = .ok fonts) : fonts ≠ [] := by
  obtain ⟨hne, hwf⟩ := detectFonts_wf ir
  have hreq := fontRequests_ne_nil _ hne hwf
  rw [loadFontsForDocumentM, loadFontsFromUsage] at h
  rcases ho : exceptOks ((fontRequests (detectFontsFromIR ir)).map
      fun r => resolver r.1 r.2.1 r.2.2) with _ | ⟨f, fs⟩ <;>
    rcases he : exceptErrs ((fontRequests (detectFontsFromIR ir)).map
      fun r => resolver r.1 r.2.1 r.2.2) with _ | ⟨err, es⟩ <;>
    rw [ho, he] at h
  · have := exceptBoth_nil _ ho he
    rw [List.map_eq_nil_iff] at this
    exact absurd this hreq
  · simp at h
  · simp at h
    subst h
    simp
  · simp at h
    subst h
    simp

/-! ## Magic-byte index lemmas -/

theorem getElem_of_take4 (bs : List Nat) (a b c d : Nat)
    (h : bs.take 4 = [a, b, c, d]) :
    bs[0]? = some a ∧ bs[1]? = some b ∧ bs[2]? = some c ∧ bs[3]? = some d := by
  rcases bs with _ | ⟨x0, _ | ⟨x1, _ | ⟨x2, _ | ⟨x3, rest⟩⟩⟩⟩ <;> simp_all

theorem take4_of_getElem (bs : List Nat) (a b c d : Nat)
    (h0 : bs[0]? = some a) (h1 : bs[1]? = some b) (h2 : bs[2]? = some c)
    (h3 : bs[3]? = some d) :
    bs.take 4 = [a, b, c, d] := by
  rcases bs with _ | ⟨x0, _ | ⟨x1, _ | ⟨x2, _ | ⟨x3, rest⟩⟩⟩⟩ <;> simp_all

theorem getElem_of_take3 (bs : List Nat) (a b c : Nat)
    (h : bs.take 3 = [a, b, c]) :
    bs[0]? = some a ∧ bs[1]? = some b ∧ bs[2]? = some c := by
  rcases bs with _ | ⟨x0, _ | ⟨x1, _ | ⟨x2, rest⟩⟩⟩ <;> simp_all

theorem take3_of_getElem (bs : List Nat) (a b c : Nat)
    (h0 : bs[0]? = some a) (h1 : bs[1]? = some b) (h2 : bs[2]? = some c) :
    bs.take 3 = [a, b, c] := by
  rcases bs with _ | ⟨x0, _ | ⟨x1, _ | ⟨x2, rest⟩⟩⟩ <;> simp_all

/-! ## The claims -/

/-- C1 (amended): the Tree Converter's unwrap step repeatedly invokes
composite (function) components with their received properties until a
primitive element — or a composite whose function returned a non-element —
is reached; but the source has **no** depth cap and no distinguished error:
a composite that always returns another composite makes the unwrap loop, and
hence the whole conversion, run forever (for every amount of fuel the
fuel-indexed model returns "still running"), instead of terminating with an
error. -/
theorem unwrap_no_cap_diverges :
    (∀ (env : Env) (n : Nat) (e u : Elem), unwrapF env n e = some u →
      (∃ tag, u.ty = .host tag) ∨ (∃ i, u.ty = .comp i ∧ env i u.props = none)) ∧
    (∀ fuel : Nat, unwrapF selfLoopEnv fuel selfLoopElem = none) ∧
    (∀ fuel : Nat, reactToIRF selfLoopEnv fuel selfLoopElem = none) := by
  refine ⟨unwrap_settled, unwrapF_selfLoop, ?_⟩
  intro fuel
  cases fuel with
  | zero => rfl
  | succ n =>
    rw [reactToIRF, convertElemF, unwrapF_selfLoop]
    rfl

/-- C1 witness: unwrapping `<Text/>` (component index 3) settles on the
primitive `paperflow-text` host element. -/
theorem unwrap_no_cap_diverges_witness :
    (∃ tag, (Elem.mk (.host "paperflow-text")
        (Props.mk none none .null [("wrap", .b true)])).ty = ETy.host tag) ∨
    (∃ i, (Elem.mk (.host "paperflow-text")
        (Props.mk none none .null [("wrap", .b true)])).ty = ETy.comp i ∧
      componentsEnv i (Elem.mk (.host "paperflow-text")
        (Props.mk none none .null [("wrap", .b true)])).props = none) :=
  unwrap_no_cap_diverges.1 componentsEnv 5 (.mk (.comp 3) Props.empty) _ rfl

/-- C1 counterexample: the claim's "conversion terminates with that
(depth-cap) error" is false on the self-referential composite — the
conversion never terminates at all (no fuel suffices). -/
theorem self_composite_conversion_never_terminates :
    ¬ convTerminates selfLoopEnv selfLoopElem := by
  rintro ⟨fuel, h⟩
  cases fuel with
  | zero => simp [reactToIRF, convertElemF] at h
  | succ n =>
    rw [reactToIRF] at h
    rw [convertElemF, unwrapF_selfLoop] at h
    simp at h

/-- C2 (amended): in the tree converter's font-usage tracking, the family
key is the first comma-separated segment of the declared `fontFamily`,
trimmed and with quotes removed (`trackFontKey`) — two declarations collapse
to a single font-usage entry exactly when those quote-stripped, trimmed keys
coincide; letter case and internal whitespace are *not* normalized at this
stage (lower-casing happens later, in the font loader's `normalizeFamily`). -/
theorem trackFonts_key_quote_trim_dedup (st₁ st₂ : Obj) (f₁ f₂ : String)
    (h₁ : olookup st₁ "fontFamily" = some (.s f₁)) (hf₁ : f₁ ≠ "")
    (hk₁ : trackFontKey f₁ ≠ "")
    (h₂ : olookup st₂ "fontFamily" = some (.s f₂)) (hf₂ : f₂ ≠ "")
    (hk₂ : trackFontKey f₂ ≠ "") :
    (trackFonts st₂ (trackFonts st₁ ⟨[], []⟩)).fonts.length = 1 ↔
      trackFontKey f₁ = trackFontKey f₂ := by
  rw [trackFonts_eval st₁ f₁ _ h₁ hf₁ hk₁, trackFonts_eval st₂ f₂ _ h₂ hf₂ hk₂]
  by_cases hkk : trackFontKey f₁ = trackFontKey f₂
  · simp only [addFontWeight, if_pos hkk.symm]
    simp [hkk]
  · simp only [addFontWeight,
      if_neg (fun h : trackFontKey f₂ = trackFontKey f₁ => hkk h.symm)]
    simp [addFontWeight, hkk]

/-- C2 witness: `"'Inter' "` (quoted, trailing space) and `"Inter"` produce
the same key and collapse to one entry. -/
theorem trackFonts_key_quote_trim_dedup_witness :
    ((trackFonts [("fontFamily", .s "Inter")]
        (trackFonts [("fontFamily", .s "'Inter' ")] ⟨[], []⟩)).fonts.length = 1 ↔
      trackFontKey "'Inter' " = trackFontKey "Inter") :=
  trackFonts_key_quote_trim_dedup [("fontFamily", .s "'Inter' ")]
    [("fontFamily", .s "Inter")] "'Inter' " "Inter"
    (by decide) (by decide) (by decide) (by decide) (by decide) (by decide)

/-- C2 counterexample: converting a document whose two text nodes declare
families `"Inter"` and `"inter"` (differing only in letter case) yields an
IRDocument with **two** font-usage entries, not one — the converter's keys
are not case-normalized. -/
theorem case_differing_families_two_entries :
    (reactToIRF componentsEnv 30 caseTree).map (fun d => d.fonts.map (·.family)) =
      some ["Inter", "inter"] := by decide

/-- C3: for a non-empty usage manifest (whose entries carry at least one
weight and style, as every manifest `detectFontsFromIR` produces does), bulk
font resolution settles every `(family, weight, style)` request: if at least
one request resolves, the result is exactly the list of fulfilled fonts in
request order with no error; if every request fails, the error of the first
request propagates. -/
theorem loadFonts_settle_all_policy (resolver : FontResolver)
    (usage : List IRFontUsage)
    (hne : usage ≠ [])
    (hwf : ∀ u ∈ usage, u.weights ≠ [] ∧ u.styles ≠ []) :
    ((∃ r ∈ fontRequests usage, (resolver r.1 r.2.1 r.2.2).isOk) →
      loadFontsFromUsage resolver usage =
        .ok (exceptOks ((fontRequests usage).map fun r => resolver r.1 r.2.1 r.2.2))) ∧
    ((∀ r ∈ fontRequests usage, ¬ (resolver r.1 r.2.1 r.2.2).isOk) →
      ∀ r₀ rs, fontRequests usage = r₀ :: rs →
        ∀ err, resolver r₀.1 r₀.2.1 r₀.2.2 = .error err →
          loadFontsFromUsage resolver usage = .error err) := by
  constructor
  · rintro ⟨r, hr, hok⟩
    rw [loadFontsFromUsage]
    have hex : ∃ f, resolver r.1 r.2.1 r.2.2 = .ok f := by
      cases hres : resolver r.1 r.2.1 r.2.2 with
      | ok f => exact ⟨f, rfl⟩
      | error err => rw [hres] at hok; simp [Except.isOk, Except.toBool] at hok
    obtain ⟨f, hres⟩ := hex
    have hmem : Except.ok f ∈ ((fontRequests usage).map fun r => resolver r.1 r.2.1 r.2.2) :=
      List.mem_map.mpr ⟨r, hr, hres⟩
    have hne' := exceptOks_ne_nil _ _ hmem
    rcases hfo : exceptOks ((fontRequests usage).map fun r => resolver r.1 r.2.1 r.2.2) with
      _ | ⟨f', fs⟩
    · exact absurd hfo hne'
    · rcases exceptErrs ((fontRequests usage).map fun r => resolver r.1 r.2.1 r.2.2) with
        _ | ⟨err, es⟩ <;> simp [hfo]
  · intro hall r₀ rs hreq err he
    rw [loadFontsFromUsage]
    have hoks : exceptOks ((fontRequests usage).map fun r => resolver r.1 r.2.1 r.2.2) = [] := by
      apply exceptOks_all_error
      intro rr hrr v hv
      rcases List.mem_map.mp hrr with ⟨req, hreqmem, hmap⟩
      have := hall req hreqmem
      rw [hmap] at this
      rw [hv] at this
      simp [Except.isOk, Except.toBool] at this
    have herrs : exceptErrs ((fontRequests usage).map fun rr => resolver rr.1 rr.2.1 rr.2.2) =
        err :: exceptErrs (rs.map fun rr => resolver rr.1 rr.2.1 rr.2.2) := by
      rw [hreq]
      simp [exceptErrs, List.filterMap_cons, he]
    rw [hoks, herrs]

/-- C3 witness: on the manifest `inter/(400,700)/normal`, a resolver failing
400 but resolving 700 yields exactly the successful subset; a resolver
failing both propagates the *first* request's error (`FONT_FETCH_ERROR`,
not the second one's `FONT_LOAD_FAILED`). -/
theorem loadFonts_settle_all_policy_witness :
    loadFontsFromUsage c3OkResolver c3Usage =
      .ok (exceptOks ((fontRequests c3Usage).map fun r => c3OkResolver r.1 r.2.1 r.2.2)) ∧
    loadFontsFromUsage c3FailResolver c3Usage = .error .FONT_FETCH_ERROR :=
  ⟨(loadFonts_settle_all_policy c3OkResolver c3Usage (by decide) (by decide)).1
      ⟨("inter", 700, "normal"), by decide, by decide⟩,
   (loadFonts_settle_all_policy c3FailResolver c3Usage (by decide) (by decide)).2
      (by decide) ("inter", 400, "normal") [("inter", 700, "normal")] (by decide)
      .FONT_FETCH_ERROR rfl⟩

/-- C4: when a node carries both a utility-class string and an explicit
style map (a JS object, hence duplicate-free keys), every property key set
by both ends up with the explicit style's value after the converter's merge
(`{ ...tailwindStyle, ...inlineStyle }`): class-derived keys never override
explicit keys. -/
theorem explicit_style_overrides_class (cls : String) (inline : Obj) (k : String)
    (a b : JsVal)
    (hnd : (inline.map Prod.fst).Nodup)
    (ha : olookup (parseTailwindClasses cls) k = some a)
    (hb : olookup inline k = some b) :
    olookup (mergeStyles (parseTailwindClasses cls) inline) k = some b := by
  have hlast : lastWrite inline k = some b := by
    rw [lastWrite_eq_olookup_of_nodup inline k hnd, hb]
  rw [mergeStyles, olookup_oassignAll, hlast]
  rfl

/-- C4 witness: `className="text-black"` (color `#000000`) merged with the
explicit `color: #ff0000` keeps the explicit red. -/
theorem explicit_style_overrides_class_witness :
    olookup (mergeStyles (parseTailwindClasses "text-black")
      [("color", .s "#ff0000")]) "color" = some (.s "#ff0000") :=
  explicit_style_overrides_class "text-black" [("color", .s "#ff0000")] "color"
    (.s "#000000") (.s "#ff0000") (by decide) (by decide) (by decide)

/-- C5: converting `{document → page → text("Hello")}` yields an IRDocument
with exactly one page, whose single page has exactly one child node, of kind
`text`, carrying the content `"Hello"` (the content sits on the text leaf
the converter creates for the string child, which is exactly where the
engine's text extraction, mirrored by `textContent`, reads it). -/
theorem hello_tree_end_to_end :
    (reactToIRF componentsEnv 20 helloTree).map (fun d =>
      (d.pages.length, d.pages.map fun p => p.children.map fun c => (c.type, textContent c))) =
      some (1, [[(.text, "Hello")]]) := by decide

/-- C6: the default-font guarantee, across the pipeline: (i) a conversion
that tracked no font declaration assembles an IRDocument whose font-usage
list is exactly the one default entry (`Inter`, weight 400, normal); (ii)
`detectFontsFromIR` on an IR whose styles declare no font family returns
exactly the one normalized default entry (`inter`), so bulk resolution of an
empty manifest fires one default request; (iii) whenever
`loadFontsForDocument` returns at all, the resolved font list it hands to
the engine is non-empty. -/
theorem default_font_guarantee :
    (∀ (env : Env) (fuel : Nat) (e : Elem) (root : IRNode) (ctx : ConvCtx),
      convertElemF env fuel e ⟨[], []⟩ = some (root, ctx) → ctx.fonts = [] →
      reactToIRF env fuel e = some (buildDocument root ctx) ∧
      (buildDocument root ctx).fonts = [⟨"Inter", [400], ["normal"]⟩]) ∧
    (∀ ir : IRDocument, (∀ p ∈ ir.pages, nodesHaveFontFamily p.children = false) →
      detectFontsFromIR ir = [⟨"inter", [400], ["normal"]⟩]) ∧
    (∀ (resolver : FontResolver) (ir : IRDocument) (fonts : List LoadedFont),
      loadFontsForDocumentM resolver ir = .ok fonts → fonts ≠ []) := by
  refine ⟨?_, detectFonts_no_font, loadFonts_ok_ne_nil⟩
  intro env fuel e root ctx hconv hfonts
  constructor
  · rw [reactToIRF, hconv]
    rfl
  · simp [buildDocument, hfonts]

/-- C6 witness: the `helloTree` document (no style-declared fonts) gets the
`Inter` default entry; `detectFontsFromIR` on its IR yields the normalized
default; resolving it with an always-succeeding resolver hands the engine a
non-empty list. -/
theorem default_font_guarantee_witness :
    (reactToIRF componentsEnv 20 helloTree = some (buildDocument helloRoot ⟨[], []⟩) ∧
      (buildDocument helloRoot ⟨[], []⟩).fonts = [⟨"Inter", [400], ["normal"]⟩]) ∧
    detectFontsFromIR (buildDocument helloRoot ⟨[], []⟩) = [⟨"inter", [400], ["normal"]⟩] ∧
    ([⟨"inter", 400, "normal", []⟩] : List LoadedFont) ≠ [] :=
  ⟨default_font_guarantee.1 componentsEnv 20 helloTree helloRoot ⟨[], []⟩ rfl rfl,
   default_font_guarantee.2.1 (buildDocument helloRoot ⟨[], []⟩) (by decide),
   default_font_guarantee.2.2 interResolver (buildDocument helloRoot ⟨[], []⟩)
     [⟨"inter", 400, "normal", []⟩] rfl⟩

/-- C7: an image source string with neither an `http://`, `https://` nor
`data:` scheme is rejected with the distinguished `LOCAL_FILE_NOT_SUPPORTED`
error, for every network/cache environment, and the fetch log stays empty —
no fetch is performed. -/
theorem bare_path_rejected_no_fetch (deps : ImgDeps) (s : String)
    (h1 : jsStartsWith s "data:" = false)
    (h2 : jsStartsWith s "http://" = false)
    (h3 : jsStartsWith s "https://" = false) :
    loadImage deps (.str s) = (.error (.pf .LOCAL_FILE_NOT_SUPPORTED), []) := by
  simp [loadImage, loadImageStr, h1, h2, h3]

/-- C7 witness: the bare path `./logo.png`. -/
theorem bare_path_rejected_no_fetch_witness :
    loadImage c7Deps (.str "./logo.png") = (.error (.pf .LOCAL_FILE_NOT_SUPPORTED), []) :=
  bare_path_rejected_no_fetch c7Deps "./logo.png" (by decide) (by decide) (by decide)

/-- C8: in the utility-class parser, a later token in the string wins for
any property it sets (last write on map assignment), and a token's effects
on keys no other token sets survive regardless of the other tokens present:
whenever the token list splits as `pre ++ u :: post` — `u` at *any*
position, with arbitrary tokens before it — where `u`'s final write to key
`k` is `v` and nothing in `post` writes `k`, the parsed style maps `k` to
`v`.  In particular two tokens both setting `k` merge to the later one's
value (take `pre` to contain the earlier setter), and tokens setting
disjoint properties contribute the union of their effects (for each token,
take `pre`/`post` to be the other tokens, none of which write its keys —
including when the token is the string's first). -/
theorem later_token_wins_union_effects (s : String) (pre post : List String)
    (u k : String) (v : JsVal)
    (hsplit : jsTokens s = pre ++ u :: post)
    (hu : lastWrite (tokenWrites u) k = some v)
    (hpost : ∀ w ∈ post, lastWrite (tokenWrites w) k = none) :
    olookup (parseTailwindClasses s) k = some v := by
  have hs : s ≠ "" := by
    intro h
    subst h
    simp [jsTokens] at hsplit
  rw [olookup_parseTailwindClasses s hs k, hsplit]
  simp only [List.flatMap_append, List.flatMap_cons, lastWrite_append]
  rw [lastWrite_flatMap_none post k hpost, hu]
  rfl

/-- C8 witness: in `"p-2 p-4 flex"`, the later `p-4` wins for `padding`
(16, not 8) with the unrelated `flex` after it; and in `"flex gap-4"` the
*first* token's `display: flex` survives alongside the disjoint `gap-4`. -/
theorem later_token_wins_union_effects_witness :
    olookup (parseTailwindClasses "p-2 p-4 flex") "padding" = some (.n 16) ∧
    olookup (parseTailwindClasses "flex gap-4") "display" = some (.s "flex") :=
  ⟨later_token_wins_union_effects "p-2 p-4 flex" ["p-2"] ["flex"] "p-4"
      "padding" (.n 16) (by decide) (by decide) (by decide),
   later_token_wins_union_effects "flex gap-4" [] ["gap-4"] "flex"
      "display" (.s "flex") (by decide) (by decide) (by decide)⟩

/-- C9: byte-buffer format detection classifies PNG (`89 50 4E 47`), JPEG
(`FF D8 FF`), WebP (`RIFF` at 0 plus `WEBP` at offset 8) and GIF
(`47 49 46 38`) signatures, and any buffer matching none of the recognized
signatures — including the SVG leading-markup text check — raises the
distinguished `UNKNOWN_IMAGE_FORMAT` error. -/
theorem magic_byte_classification (bs : List Nat) :
    (bs.take 4 = [0x89, 0x50, 0x4e, 0x47] → detectImageFormat bs = .ok .png) ∧
    (bs.take 3 = [0xff, 0xd8, 0xff] → detectImageFormat bs = .ok .jpeg) ∧
    (bs.take 4 = [0x52, 0x49, 0x46, 0x46] → (bs.drop 8).take 4 = [0x57, 0x45, 0x42, 0x50] →
      detectImageFormat bs = .ok .webp) ∧
    (bs.take 4 = [0x47, 0x49, 0x46, 0x38] → detectImageFormat bs = .ok .gif) ∧
    (bs.take 4 ≠ [0x89, 0x50, 0x4e, 0x47] → bs.take 3 ≠ [0xff, 0xd8, 0xff] →
      ¬ (bs.take 4 = [0x52, 0x49, 0x46, 0x46] ∧ (bs.drop 8).take 4 = [0x57, 0x45, 0x42, 0x50]) →
      bs.take 4 ≠ [0x47, 0x49, 0x46, 0x38] → svgTextCheck bs = false →
      detectImageFormat bs = .error .UNKNOWN_IMAGE_FORMAT) := by
  refine ⟨?_, ?_, ?_, ?_, ?_⟩
  · intro h
    obtain ⟨h0, h1, h2, h3⟩ := getElem_of_take4 bs _ _ _ _ h
    simp [detectImageFormat, h0, h1, h2, h3]
  · intro h
    obtain ⟨h0, h1, h2⟩ := getElem_of_take3 bs _ _ _ h
    simp [detectImageFormat, h0, h1, h2]
  · intro h h'
    obtain ⟨h0, h1, h2, h3⟩ := getElem_of_take4 bs _ _ _ _ h
    obtain ⟨h8, h9, h10, h11⟩ := getElem_of_take4 (bs.drop 8) _ _ _ _ h'
    simp only [List.getElem?_drop] at h8 h9 h10 h11
    norm_num at h8 h9 h10 h11
    simp [detectImageFormat, h0, h1, h2, h3, h8, h9, h10, h11]
  · intro h
    obtain ⟨h0, h1, h2, h3⟩ := getElem_of_take4 bs _ _ _ _ h
    simp [detectImageFormat, h0, h1, h2, h3]
  · intro hpng hjpeg hwebp hgif hsvg
    rw [detectImageFormat]
    rw [if_neg (fun hc => hpng (take4_of_getElem bs _ _ _ _ hc.1 hc.2.1 hc.2.2.1 hc.2.2.2))]
    rw [if_neg (fun hc => hjpeg (take3_of_getElem bs _ _ _ hc.1 hc.2.1 hc.2.2))]
    rw [if_neg (fun hc => hwebp ⟨take4_of_getElem bs _ _ _ _ hc.1 hc.2.1 hc.2.2.1 hc.2.2.2.1,
      take4_of_getElem (bs.drop 8) _ _ _ _
        (by rw [List.getElem?_drop]; exact hc.2.2.2.2.1)
        (by rw [List.getElem?_drop]; exact hc.2.2.2.2.2.1)
        (by rw [List.getElem?_drop]; exact hc.2.2.2.2.2.2.1)
        (by rw [List.getElem?_drop]; exact hc.2.2.2.2.2.2.2)⟩)]
    rw [if_neg (fun hc => hgif (take4_of_getElem bs _ _ _ _ hc.1 hc.2.1 hc.2.2.1 hc.2.2.2))]
    rw [if_neg (by simp [hsvg])]

/-- C9 witness: one concrete buffer per signature, and one (`00 01 02`,
also failing the SVG text check) for the error case. -/
theorem magic_byte_classification_witness :
    detectImageFormat pngBytes = .ok .png ∧
    detectImageFormat jpegBytes = .ok .jpeg ∧
    detectImageFormat webpBytes = .ok .webp ∧
    detectImageFormat gifBytes = .ok .gif ∧
    detectImageFormat unknownBytes = .error .UNKNOWN_IMAGE_FORMAT :=
  ⟨(magic_byte_classification pngBytes).1 (by decide),
   (magic_byte_classification jpegBytes).2.1 (by decide),
   (magic_byte_classification webpBytes).2.2.1 (by decide) (by decide),
   (magic_byte_classification gifBytes).2.2.2.1 (by decide),
   (magic_byte_classification unknownBytes).2.2.2.2 (by decide) (by decide)
     (by decide) (by decide) (by decide)⟩

/-- C10: every `data:image/svg+xml;base64,…` data URI is rejected with the
distinguished `INVALID_BASE64_IMAGE` error (and no fetch is performed),
because the strict pattern's `(\w+)` format group cannot match the `+` of
`svg+xml` — even though `svg+xml` is an accepted format string in the
loader's own `normalizeFormat` and SVG is otherwise a supported format. -/
theorem svg_xml_data_uri_invalid_base64 (deps : ImgDeps) (payload : String) :
    loadImage deps (.str ("data:image/svg+xml;base64," ++ payload)) =
      (.error (.pf .INVALID_BASE64_IMAGE), []) ∧
    normalizeFormat "svg+xml" = .svg := by
  have hdata : ("data:image/svg+xml;base64," ++ payload).data =
      'd' :: 'a' :: 't' :: 'a' :: ':' :: 'i' :: 'm' :: 'a' :: 'g' :: 'e' :: '/' ::
      's' :: 'v' :: 'g' :: '+' :: 'x' :: 'm' :: 'l' :: ';' :: 'b' :: 'a' :: 's' ::
      'e' :: '6' :: '4' :: ',' :: payload.data := by
    rw [String.data_append]
    rfl
  have hstarts : jsStartsWith ("data:image/svg+xml;base64," ++ payload) "data:" = true := by
    rw [jsStartsWith, hdata]
    simp [List.isPrefixOf]
  have hparse : dataUriParse ("data:image/svg+xml;base64," ++ payload) = none := by
    rw [dataUriParse]
    rw [hdata]
    simp [List.isPrefixOf, List.takeWhile, List.dropWhile, isWordChar]
  constructor
  · rw [loadImage, loadImageStr, if_pos hstarts, loadFromDataUri, hparse]
  · decide
